import Mathlib

/-!
Shallow embedding of the agent-based epidemic simulator
(src/VirusConEstrategias.py, src/ComportamientoVirus_FINAL.py and the
scheduler module src/time.py).

Randomness: the Python code consumes one shared `random.Random` stream
(`self.model.random`, reached through `self.random` on agents).  We model
that stream as an explicit list of draws, consumed strictly in program
order.  A draw is either a rational in [0,1) (modelling `random.random()`),
a natural number (modelling `random.randrange(n)` / the index chosen by
`random.choice`, reduced mod the range size), or a permutation (modelling
`random.shuffle`, which the spec treats as an injected shuffle service).
-/

/-- Epidemiological state of an agent: the string values
"Susceptible" / "Infected" / "Recovered" used by the Python code. -/
inductive SIR where
  | Susceptible
  | Infected
  | Recovered
deriving DecidableEq, Repr

/-- One element of the shared random stream. -/
inductive RVal where
  | flt (q : ℚ)
  | nat (n : Nat)
  | perm (p : List Nat)
deriving DecidableEq, Repr

/-- The shared random stream (`self.model.random`), consumed in call order. -/
abbrev Rng := List RVal

/-- Model of `random.random()`: consume one draw, read it as a rational
(default 0 on a malformed stream; the code never validates draws). -/
def drawFloat : Rng → ℚ × Rng
  | [] => (0, [])
  | RVal.flt q :: r => (q, r)
  | _ :: r => (0, r)

/-- Model of `random.randrange(n)` and of the index picked by
`random.choice` on a sequence of length n: consume one draw, reduce mod n. -/
def drawNat (n : Nat) : Rng → Nat × Rng
  | [] => (0, [])
  | RVal.nat v :: r => (v % n, r)
  | _ :: r => (0, r)

/-- Model of `random.shuffle`: consume one draw holding the permutation the
shuffle service picked (identity-by-default on a malformed stream). -/
def drawPerm : Rng → List Nat × Rng
  | [] => ([], [])
  | RVal.perm p :: r => (p, r)
  | _ :: r => ([], r)

/-- Apply a permutation, given as the list of source indices, to a list.
When the draw is not a permutation of the index range the list is kept
as-is (the shuffle service always returns some permutation). -/
def applyPerm (p : List Nat) (l : List α) : List α :=
  if p.Perm (List.range l.length) then p.filterMap (fun i => l[i]?) else l

/-- Model of mesa `MultiGrid.get_neighborhood(pos, moore=True,
include_center=False)` on a toroidal width×height grid: the 8 wrapped
Moore neighbours (exact for grids with width, height ≥ 3, which is what
the models use; default 20×20). -/
def get_neighborhood (w h : Nat) : Nat × Nat → List (Nat × Nat)
  | (x, y) =>
    (List.range 3).flatMap (fun i =>
      (List.range 3).filterMap (fun j =>
        if i = 1 ∧ j = 1 then none
        else some ((x + w + i - 1) % w, (y + h + j - 1) % h)))

namespace Virus

/-- One `InfectionAgent` of src/VirusConEstrategias.py.  `pos = none`
models an agent not placed on the grid (removed by quarantine). -/
structure Agent where
  unique_id : Nat
  state : SIR
  infection_time : Nat
  is_quarantined : Bool
  pos : Option (Nat × Nat)
deriving DecidableEq, Repr

/-- The `InfectionModel` of src/VirusConEstrategias.py together with its
scheduler fields (`schedule.time`, `schedule.steps`, the agent dict in
insertion order) and the data collector rows. -/
structure Model where
  num_agents : Nat
  width : Nat
  height : Nat
  infection_rate : ℚ
  recovery_time : Nat
  social_distancing_rate : ℚ
  quarantine_enabled : Bool
  agents : List Agent
  time : Nat
  steps : Nat
  running : Bool
  history : List (Nat × Nat × Nat)
deriving DecidableEq, Repr

/-- Count of agents (by state value) in a list of states; models
`sum(1 for a in m.schedule.agents if a.state == s)`. -/
def countState (s : SIR) (l : List SIR) : Nat :=
  (l.filter (fun t => t = s)).length

/-- Look an agent up by identity: Python object reference resolved
through `unique_id` (the scheduler dict key). -/
def findAgent (l : List Agent) (id : Nat) : Option Agent :=
  l.find? (fun a => a.unique_id = id)

/-- In-place mutation of the (unique) agent object with the given
identity, as Python attribute assignment on the shared reference. -/
def updateAgent (l : List Agent) (id : Nat) (f : Agent → Agent) : List Agent :=
  l.map (fun a => if a.unique_id = id then f a else a)

/-- Mutate one agent inside the model. -/
def withAgent (m : Model) (id : Nat) (f : Agent → Agent) : Model :=
  { m with agents := updateAgent m.agents id f }

/-- `InfectionAgent.update_status` (lines 25-36): an Infected agent whose
infection is at least `recovery_time` ticks old becomes Recovered; if it
was quarantined the flag is cleared and it is re-placed at a random cell
(`randrange(width)`, `randrange(height)`). -/
def update_status (m : Model) (id : Nat) (rng : Rng) : Model × Rng :=
  match findAgent m.agents id with
  | none => (m, rng)
  | some a =>
    if a.state = SIR.Infected ∧ m.recovery_time ≤ m.time - a.infection_time then
      if a.is_quarantined then
        let xr := drawNat m.width rng
        let yr := drawNat m.height xr.2
        (withAgent m id (fun b =>
          { b with state := SIR.Recovered, is_quarantined := false,
                   pos := some (xr.1, yr.1) }), yr.2)
      else
        (withAgent m id (fun b => { b with state := SIR.Recovered }), rng)
    else (m, rng)

/-- `InfectionAgent.move` (lines 15-23): draw once; only when the draw
exceeds `social_distancing_rate` does the agent relocate, to a
`random.choice` of its Moore neighbourhood.  (With `pos = none` the
Python code would fault; that branch is unreachable because `move` is
only invoked on non-quarantined agents, which are always placed.) -/
def move (m : Model) (id : Nat) (rng : Rng) : Model × Rng :=
  match findAgent m.agents id with
  | none => (m, rng)
  | some a =>
    let fr := drawFloat rng
    if m.social_distancing_rate < fr.1 then
      match a.pos with
      | none => (m, fr.2)
      | some p =>
        let steps := get_neighborhood m.width m.height p
        let ir := drawNat steps.length fr.2
        (withAgent m id (fun b => { b with pos := some (steps.getD ir.1 p) }), ir.2)
    else (m, fr.2)

/-- One iteration of the `for other in cellmates` loop of
`InfectionAgent.infect`: re-read the cellmate through its reference; if
it is Susceptible, roll once; on success it becomes Infected at the
current tick and, when quarantine is enabled, is flagged quarantined and
removed from the grid. -/
def infectOne (mr : Model × Rng) (oid : Nat) : Model × Rng :=
  match findAgent mr.1.agents oid with
  | none => mr
  | some o =>
    if o.state = SIR.Susceptible then
      let fr := drawFloat mr.2
      if fr.1 < mr.1.infection_rate then
        (withAgent mr.1 oid (fun b =>
          if mr.1.quarantine_enabled then
            { b with state := SIR.Infected, infection_time := mr.1.time,
                     is_quarantined := true, pos := none }
          else
            { b with state := SIR.Infected, infection_time := mr.1.time }), fr.2)
      else (mr.1, fr.2)
    else mr

/-- `InfectionAgent.infect` (lines 38-50): an Infected agent takes the
current contents of its cell (`get_cell_list_contents([self.pos])`) and
runs the infection roll over them in order. -/
def infect (m : Model) (id : Nat) (rng : Rng) : Model × Rng :=
  match findAgent m.agents id with
  | none => (m, rng)
  | some a =>
    if a.state = SIR.Infected then
      match a.pos with
      | none => (m, rng)
      | some p =>
        let cellmates := (m.agents.filter (fun o => o.pos = some p)).map
          (fun o => o.unique_id)
        cellmates.foldl infectOne (m, rng)
    else (m, rng)

/-- `InfectionAgent.step` (lines 52-59): a quarantined agent only waits
for recovery; otherwise update_status, then move, then infect. -/
def agentStep (m : Model) (id : Nat) (rng : Rng) : Model × Rng :=
  match findAgent m.agents id with
  | none => (m, rng)
  | some a =>
    if a.is_quarantined then
      update_status m id rng
    else
      let u := update_status m id rng
      let v := move u.1 id u.2
      infect v.1 id v.2

/-- `RandomActivation.step` of src/time.py: snapshot the keys, shuffle
them, then activate each key still present when its turn comes; finally
advance `steps` and `time`. -/
def scheduleStep (m : Model) (rng : Rng) : Model × Rng :=
  let keys := m.agents.map (fun a => a.unique_id)
  let pr := drawPerm rng
  let order := applyPerm pr.1 keys
  let res := order.foldl (fun mr k =>
      if (findAgent mr.1.agents k).isSome then agentStep mr.1 k mr.2 else mr)
    (m, pr.2)
  ({ res.1 with steps := res.1.steps + 1, time := res.1.time + 1 }, res.2)

/-- The three data collector reporters of `InfectionModel.__init__`. -/
def snapshot (m : Model) : Nat × Nat × Nat :=
  (countState SIR.Susceptible (m.agents.map Agent.state),
   countState SIR.Infected (m.agents.map Agent.state),
   countState SIR.Recovered (m.agents.map Agent.state))

/-- `InfectionModel.step` (lines 110-114): scheduler step, collect a
snapshot, then clear `running` when no agent is Infected. -/
def modelStep (m : Model) (rng : Rng) : Model × Rng :=
  let sr := scheduleStep m rng
  let m2 := { sr.1 with history := sr.1.history ++ [snapshot sr.1] }
  let m3 := if countState SIR.Infected (m2.agents.map Agent.state) = 0 then
      { m2 with running := false } else m2
  (m3, sr.2)

/-- Parameters of `InfectionModel.__init__` (probabilities as rationals). -/
structure Params where
  N : Nat
  width : Nat
  height : Nat
  initial_infected : Nat
  infection_rate : ℚ
  recovery_time : Nat
  social_distancing_rate : ℚ
  quarantine_enabled : Bool
  initial_vaccinated_rate : ℚ
deriving DecidableEq, Repr

/-- The vaccination compensation term `int(N * initial_vaccinated_rate)`
of line 98 (Python `int` truncation of a non-negative product = floor). -/
def vaccOffset (p : Params) : Nat :=
  (((p.N : ℚ) * p.initial_vaccinated_rate).floor).toNat

/-- One iteration of the construction loop (lines 84-100) for index i:
vaccination draw, placement draws, then the infection seeding test
`agent.state == "Susceptible" and i < initial_infected + int(N*rate)`. -/
def initAgent (p : Params) (i : Nat) (rng : Rng) : Agent × Rng :=
  let vr := drawFloat rng
  let st0 := if vr.1 < p.initial_vaccinated_rate then SIR.Recovered
             else SIR.Susceptible
  let xr := drawNat p.width vr.2
  let yr := drawNat p.height xr.2
  let st := if st0 = SIR.Susceptible ∧ i < p.initial_infected + vaccOffset p then
      SIR.Infected else st0
  ({ unique_id := i, state := st, infection_time := 0,
     is_quarantined := false, pos := some (xr.1, yr.1) }, yr.2)

/-- The construction loop, building agents i, i+1, ... (k of them). -/
def buildAgents (p : Params) : Nat → Nat → Rng → List Agent × Rng
  | _, 0, rng => ([], rng)
  | i, k + 1, rng =>
    let ar := initAgent p i rng
    let rest := buildAgents p (i + 1) k ar.2
    (ar.1 :: rest.1, rest.2)

/-- `InfectionModel.__init__`: build the N agents and the model record
(`running = True`, scheduler at time 0, no collected rows yet). -/
def mkModel (p : Params) (rng : Rng) : Model × Rng :=
  let br := buildAgents p 0 p.N rng
  ({ num_agents := p.N, width := p.width, height := p.height,
     infection_rate := p.infection_rate, recovery_time := p.recovery_time,
     social_distancing_rate := p.social_distancing_rate,
     quarantine_enabled := p.quarantine_enabled,
     agents := br.1, time := 0, steps := 0, running := true,
     history := [] }, br.2)

/-- Construct the model and run n ticks (`model.step()` n times). -/
def runModel (p : Params) (rng : Rng) : Nat → Model × Rng
  | 0 => mkModel p rng
  | n + 1 =>
    let mr := runModel p rng n
    modelStep mr.1 mr.2

end Virus

namespace Final

/-- One `InfectionAgent` of src/ComportamientoVirus_FINAL.py (no
quarantine attribute in this file). -/
structure Agent where
  unique_id : Nat
  state : SIR
  infection_time : Nat
  pos : Option (Nat × Nat)
deriving DecidableEq, Repr

/-- The `InfectionModel` of src/ComportamientoVirus_FINAL.py. -/
structure Model where
  num_agents : Nat
  width : Nat
  height : Nat
  infection_rate : ℚ
  recovery_time : Nat
  agents : List Agent
  time : Nat
  steps : Nat
  running : Bool
  history : List (Nat × Nat × Nat)
deriving DecidableEq, Repr

/-- Look an agent up by identity. -/
def findAgent (l : List Agent) (id : Nat) : Option Agent :=
  l.find? (fun a => a.unique_id = id)

/-- In-place mutation of the agent object with the given identity. -/
def updateAgent (l : List Agent) (id : Nat) (f : Agent → Agent) : List Agent :=
  l.map (fun a => if a.unique_id = id then f a else a)

/-- Mutate one agent inside the model. -/
def withAgent (m : Model) (id : Nat) (f : Agent → Agent) : Model :=
  { m with agents := updateAgent m.agents id f }

/-- `InfectionAgent.update_status` (lines 29-36): recovery check only. -/
def update_status (m : Model) (id : Nat) (rng : Rng) : Model × Rng :=
  match findAgent m.agents id with
  | none => (m, rng)
  | some a =>
    if a.state = SIR.Infected ∧ m.recovery_time ≤ m.time - a.infection_time then
      (withAgent m id (fun b => { b with state := SIR.Recovered }), rng)
    else (m, rng)

/-- `InfectionAgent.move` (lines 19-27): unconditional relocation to a
`random.choice` of the Moore neighbourhood. -/
def move (m : Model) (id : Nat) (rng : Rng) : Model × Rng :=
  match findAgent m.agents id with
  | none => (m, rng)
  | some a =>
    match a.pos with
    | none => (m, rng)
    | some p =>
      let steps := get_neighborhood m.width m.height p
      let ir := drawNat steps.length rng
      (withAgent m id (fun b => { b with pos := some (steps.getD ir.1 p) }), ir.2)

/-- One iteration of the `for other_agent in cellmates` loop of
`InfectionAgent.infect`. -/
def infectOne (mr : Model × Rng) (oid : Nat) : Model × Rng :=
  match findAgent mr.1.agents oid with
  | none => mr
  | some o =>
    if o.state = SIR.Susceptible then
      let fr := drawFloat mr.2
      if fr.1 < mr.1.infection_rate then
        (withAgent mr.1 oid (fun b =>
          { b with state := SIR.Infected, infection_time := mr.1.time }), fr.2)
      else (mr.1, fr.2)
    else mr

/-- `InfectionAgent.infect` (lines 38-49): only runs the cellmate loop
when the cell holds more than one agent. -/
def infect (m : Model) (id : Nat) (rng : Rng) : Model × Rng :=
  match findAgent m.agents id with
  | none => (m, rng)
  | some a =>
    if a.state = SIR.Infected then
      match a.pos with
      | none => (m, rng)
      | some p =>
        let cellmates := (m.agents.filter (fun o => o.pos = some p)).map
          (fun o => o.unique_id)
        if 1 < cellmates.length then cellmates.foldl infectOne (m, rng)
        else (m, rng)
    else (m, rng)

/-- `InfectionAgent.step` (lines 51-57): update_status, move, infect. -/
def agentStep (m : Model) (id : Nat) (rng : Rng) : Model × Rng :=
  let u := update_status m id rng
  let v := move u.1 id u.2
  infect v.1 id v.2

/-- `RandomActivation.step` of src/time.py driving this model. -/
def scheduleStep (m : Model) (rng : Rng) : Model × Rng :=
  let keys := m.agents.map (fun a => a.unique_id)
  let pr := drawPerm rng
  let order := applyPerm pr.1 keys
  let res := order.foldl (fun mr k =>
      if (findAgent mr.1.agents k).isSome then agentStep mr.1 k mr.2 else mr)
    (m, pr.2)
  ({ res.1 with steps := res.1.steps + 1, time := res.1.time + 1 }, res.2)

/-- The three data collector reporters of `InfectionModel.__init__`. -/
def snapshot (m : Model) : Nat × Nat × Nat :=
  (Virus.countState SIR.Susceptible (m.agents.map Agent.state),
   Virus.countState SIR.Infected (m.agents.map Agent.state),
   Virus.countState SIR.Recovered (m.agents.map Agent.state))

/-- `InfectionModel.step` (lines 94-100). -/
def modelStep (m : Model) (rng : Rng) : Model × Rng :=
  let sr := scheduleStep m rng
  let m2 := { sr.1 with history := sr.1.history ++ [snapshot sr.1] }
  let m3 := if Virus.countState SIR.Infected (m2.agents.map Agent.state) = 0 then
      { m2 with running := false } else m2
  (m3, sr.2)

/-- Parameters of `InfectionModel.__init__` of the FINAL file. -/
structure Params where
  N : Nat
  width : Nat
  height : Nat
  initial_infected : Nat
  infection_rate : ℚ
  recovery_time : Nat
deriving DecidableEq, Repr

/-- One iteration of the construction loop (lines 75-84): placement
draws, then `if i < initial_infected` seeds the infection. -/
def initAgent (p : Params) (i : Nat) (rng : Rng) : Agent × Rng :=
  let xr := drawNat p.width rng
  let yr := drawNat p.height xr.2
  let st := if i < p.initial_infected then SIR.Infected else SIR.Susceptible
  ({ unique_id := i, state := st, infection_time := 0, pos := some (xr.1, yr.1) },
   yr.2)

/-- The construction loop, building agents i, i+1, ... (k of them). -/
def buildAgents (p : Params) : Nat → Nat → Rng → List Agent × Rng
  | _, 0, rng => ([], rng)
  | i, k + 1, rng =>
    let ar := initAgent p i rng
    let rest := buildAgents p (i + 1) k ar.2
    (ar.1 :: rest.1, rest.2)

/-- `InfectionModel.__init__` of the FINAL file. -/
def mkModel (p : Params) (rng : Rng) : Model × Rng :=
  let br := buildAgents p 0 p.N rng
  ({ num_agents := p.N, width := p.width, height := p.height,
     infection_rate := p.infection_rate, recovery_time := p.recovery_time,
     agents := br.1, time := 0, steps := 0, running := true,
     history := [] }, br.2)

/-- Construct the model and run n ticks. -/
def runModel (p : Params) (rng : Rng) : Nat → Model × Rng
  | 0 => mkModel p rng
  | n + 1 =>
    let mr := runModel p rng n
    modelStep mr.1 mr.2

end Final

namespace Sched

/-- The scheduler population of src/time.py: the `_agents` dict as an
association list keyed by `unique_id`, in insertion order. -/
abbrev Pop (α : Type) := List (Nat × α)

/-- `BaseScheduler` state (src/time.py lines 28-33). -/
structure Scheduler (α : Type) where
  steps : Nat
  time : Nat
  _agents : Pop α
deriving DecidableEq, Repr

/-- `BaseScheduler.add` (lines 35-48): duplicate identity raises. -/
def add (s : Scheduler α) (uid : Nat) (a : α) : Option (Scheduler α) :=
  if uid ∈ s._agents.map Prod.fst then none
  else some { s with _agents := s._agents ++ [(uid, a)] }

/-- `BaseScheduler.remove` (lines 50-57): `del self._agents[uid]`, which
raises KeyError (modelled as `none`) when the identity is absent. -/
def remove (s : Scheduler α) (uid : Nat) : Option (Scheduler α) :=
  if uid ∈ s._agents.map Prod.fst then
    some { s with _agents := s._agents.filter (fun kv => kv.1 ≠ uid) }
  else none

/-- The loop body of `agent_buffer` combined with the activation call of
`step`: run through the buffered keys; a key still present in the dict is
activated (the activation `act` may mutate the whole population, e.g.
remove agents), an absent key is skipped.  Returns the final population
and the list of keys that were actually activated, in order. -/
def agent_buffer_run (act : Pop α → Nat → Pop α) :
    List Nat → Pop α → Pop α × List Nat
  | [], pop => (pop, [])
  | k :: ks, pop =>
    if k ∈ pop.map Prod.fst then
      let res := agent_buffer_run act ks (act pop k)
      (res.1, k :: res.2)
    else agent_buffer_run act ks pop

/-- `BaseScheduler.step` (lines 59-64): buffer the keys in insertion
order, activate, then advance the counters. -/
def baseStep (act : Pop α → Nat → Pop α) (s : Scheduler α) :
    Scheduler α × List Nat :=
  let res := agent_buffer_run act (s._agents.map Prod.fst) s._agents
  ({ steps := s.steps + 1, time := s.time + 1, _agents := res.1 }, res.2)

/-- `RandomActivation.step` (lines 100-108): the buffered keys are
shuffled (the draw q names the permutation the shuffle picked) before the
activation pass. -/
def randomStep (act : Pop α → Nat → Pop α) (q : List Nat) (s : Scheduler α) :
    Scheduler α × List Nat :=
  let res := agent_buffer_run act (applyPerm q (s._agents.map Prod.fst)) s._agents
  ({ steps := s.steps + 1, time := s.time + 1, _agents := res.1 }, res.2)

/-- `StagedActivation.step` (lines 177-189) with
`shuffle_between_stages = False`: one key snapshot taken at tick start
(shuffled once when so configured) is reused for every stage; each stage
checks presence per key. -/
def stagedStep (acts : List (Pop α → Nat → Pop α)) (q : List Nat)
    (s : Scheduler α) : Scheduler α × List (List Nat) :=
  let order := applyPerm q (s._agents.map Prod.fst)
  let res := acts.foldl (fun pr act =>
      let one := agent_buffer_run act order pr.1
      (one.1, pr.2 ++ [one.2])) (s._agents, [])
  ({ steps := s.steps + 1, time := s.time + 1, _agents := res.1 }, res.2)

end Sched

/-! Generic auxiliary lemmas. -/

theorem foldl_inv {σ ι : Type} (P : σ → Prop) (f : σ → ι → σ)
    (h : ∀ s i, P s → P (f s i)) :
    ∀ (l : List ι) (s : σ), P s → P (l.foldl f s) := by
  intro l
  induction l with
  | nil => intro s hs; exact hs
  | cons a t ih => intro s hs; exact ih (f s a) (h s a hs)

theorem filterMap_getElem_range {α : Type} (l : List α) :
    (List.range l.length).filterMap (fun i => l[i]?) = l := by
  induction l with
  | nil => rfl
  | cons a t ih =>
    rw [List.length_cons, List.range_succ_eq_map, List.filterMap_cons]
    have h1 : ((fun i => (a :: t)[i]?) ∘ Nat.succ) = fun i : Nat => t[i]? := by
      funext i
      exact List.getElem?_cons_succ
    simp only [List.getElem?_cons_zero, List.filterMap_map, h1, ih]

theorem applyPerm_perm {α : Type} (p : List Nat) (l : List α) :
    (applyPerm p l).Perm l := by
  unfold applyPerm
  split
  · rename_i h
    exact (h.filterMap _).trans
      (by rw [filterMap_getElem_range])
  · exact List.Perm.refl l

namespace Virus

theorem countState_partition (l : List SIR) :
    countState SIR.Susceptible l + countState SIR.Infected l +
      countState SIR.Recovered l = l.length := by
  induction l with
  | nil => rfl
  | cons a t ih =>
    cases a <;> simp [countState, List.filter_cons] at ih ⊢ <;> omega

theorem map_uid_updateAgent (l : List Agent) (id : Nat) (f : Agent → Agent)
    (h : ∀ b, (f b).unique_id = b.unique_id) :
    (updateAgent l id f).map Agent.unique_id = l.map Agent.unique_id := by
  unfold updateAgent
  rw [List.map_map]
  refine List.map_congr_left ?_
  intro a _
  by_cases hc : a.unique_id = id <;> simp [hc, h]

theorem findAgent_updateAgent (l : List Agent) (id j : Nat) (f : Agent → Agent)
    (h : ∀ b, (f b).unique_id = b.unique_id) :
    findAgent (updateAgent l id f) j =
      (findAgent l j).map (fun a => if a.unique_id = id then f a else a) := by
  unfold findAgent updateAgent
  rw [List.find?_map]
  have h2 : ((fun a : Agent => decide (a.unique_id = j)) ∘
      (fun a => if a.unique_id = id then f a else a)) =
      (fun a : Agent => decide (a.unique_id = j)) := by
    funext a
    by_cases hc : a.unique_id = id <;> simp [hc, h]
  rw [h2]

/-- Every agent-level operation only rewrites the agents list. -/
def AgentsOnly (m mo : Model) : Prop :=
  ∃ ags, mo = { m with agents := ags }

theorem agentsOnly_refl (m : Model) : AgentsOnly m m := ⟨m.agents, rfl⟩

theorem agentsOnly_trans {a b c : Model} (h1 : AgentsOnly a b)
    (h2 : AgentsOnly b c) : AgentsOnly a c := by
  obtain ⟨x, rfl⟩ := h1
  obtain ⟨y, rfl⟩ := h2
  exact ⟨y, rfl⟩

theorem agentsOnly_withAgent (m : Model) (id : Nat) (f : Agent → Agent) :
    AgentsOnly m (withAgent m id f) := ⟨updateAgent m.agents id f, rfl⟩

theorem ao_update_status (m : Model) (id : Nat) (rng : Rng) :
    AgentsOnly m (update_status m id rng).1 := by
  unfold update_status
  cases h : findAgent m.agents id with
  | none => exact agentsOnly_refl m
  | some a =>
    dsimp only
    split
    · split
      · exact agentsOnly_withAgent m id _
      · exact agentsOnly_withAgent m id _
    · exact agentsOnly_refl m

theorem uid_update_status (m : Model) (id : Nat) (rng : Rng) :
    (update_status m id rng).1.agents.map Agent.unique_id =
      m.agents.map Agent.unique_id := by
  unfold update_status
  cases h : findAgent m.agents id with
  | none => rfl
  | some a =>
    dsimp only
    split
    · split
      · exact map_uid_updateAgent _ _ _ (fun b => rfl)
      · exact map_uid_updateAgent _ _ _ (fun b => rfl)
    · rfl

theorem ao_move (m : Model) (id : Nat) (rng : Rng) :
    AgentsOnly m (move m id rng).1 := by
  unfold move
  cases h : findAgent m.agents id with
  | none => exact agentsOnly_refl m
  | some a =>
    dsimp only
    split
    · cases a.pos with
      | none => exact agentsOnly_refl m
      | some p => exact agentsOnly_withAgent m id _
    · exact agentsOnly_refl m

theorem uid_move (m : Model) (id : Nat) (rng : Rng) :
    (move m id rng).1.agents.map Agent.unique_id =
      m.agents.map Agent.unique_id := by
  unfold move
  cases h : findAgent m.agents id with
  | none => rfl
  | some a =>
    dsimp only
    split
    · cases a.pos with
      | none => rfl
      | some p => exact map_uid_updateAgent _ _ _ (fun b => rfl)
    · rfl

theorem ao_infectOne (mr : Model × Rng) (oid : Nat) :
    AgentsOnly mr.1 (infectOne mr oid).1 := by
  unfold infectOne
  cases h : findAgent mr.1.agents oid with
  | none => exact agentsOnly_refl mr.1
  | some o =>
    dsimp only
    split
    · split
      · exact agentsOnly_withAgent mr.1 oid _
      · exact agentsOnly_refl mr.1
    · exact agentsOnly_refl mr.1

theorem uid_infectOne (mr : Model × Rng) (oid : Nat) :
    (infectOne mr oid).1.agents.map Agent.unique_id =
      mr.1.agents.map Agent.unique_id := by
  unfold infectOne
  cases h : findAgent mr.1.agents oid with
  | none => rfl
  | some o =>
    dsimp only
    split
    · split
      · exact map_uid_updateAgent _ _ _ (fun b => by split <;> rfl)
      · rfl
    · rfl

theorem ao_infect (m : Model) (id : Nat) (rng : Rng) :
    AgentsOnly m (infect m id rng).1 := by
  unfold infect
  cases h : findAgent m.agents id with
  | none => exact agentsOnly_refl m
  | some a =>
    dsimp only
    split
    · cases a.pos with
      | none => exact agentsOnly_refl m
      | some p =>
        refine foldl_inv (fun mr => AgentsOnly m mr.1) infectOne ?_ _ (m, rng)
          (agentsOnly_refl m)
        intro s i hs
        exact agentsOnly_trans hs (ao_infectOne s i)
    · exact agentsOnly_refl m

theorem uid_infect (m : Model) (id : Nat) (rng : Rng) :
    (infect m id rng).1.agents.map Agent.unique_id =
      m.agents.map Agent.unique_id := by
  unfold infect
  cases h : findAgent m.agents id with
  | none => rfl
  | some a =>
    dsimp only
    split
    · cases a.pos with
      | none => rfl
      | some p =>
        refine foldl_inv
          (fun mr => mr.1.agents.map Agent.unique_id = m.agents.map Agent.unique_id)
          infectOne ?_ _ (m, rng) rfl
        intro s i hs
        rw [uid_infectOne s i, hs]
    · rfl

theorem ao_agentStep (m : Model) (id : Nat) (rng : Rng) :
    AgentsOnly m (agentStep m id rng).1 := by
  unfold agentStep
  cases h : findAgent m.agents id with
  | none => exact agentsOnly_refl m
  | some a =>
    dsimp only
    split
    · exact ao_update_status m id rng
    · exact agentsOnly_trans
        (agentsOnly_trans (ao_update_status m id rng) (ao_move _ id _))
        (ao_infect _ id _)

theorem uid_agentStep (m : Model) (id : Nat) (rng : Rng) :
    (agentStep m id rng).1.agents.map Agent.unique_id =
      m.agents.map Agent.unique_id := by
  unfold agentStep
  cases h : findAgent m.agents id with
  | none => rfl
  | some a =>
    dsimp only
    split
    · exact uid_update_status m id rng
    · rw [uid_infect, uid_move, uid_update_status]

theorem scheduleStep_shape (m : Model) (rng : Rng) :
    AgentsOnly m { (scheduleStep m rng).1 with
        steps := m.steps, time := m.time } ∧
    (scheduleStep m rng).1.steps = m.steps + 1 ∧
    (scheduleStep m rng).1.time = m.time + 1 ∧
    (scheduleStep m rng).1.agents.map Agent.unique_id =
      m.agents.map Agent.unique_id := by
  unfold scheduleStep
  dsimp only
  have h := foldl_inv
    (fun mr : Model × Rng => AgentsOnly m mr.1 ∧
      mr.1.agents.map Agent.unique_id = m.agents.map Agent.unique_id)
    (fun mr k =>
      if (findAgent mr.1.agents k).isSome then agentStep mr.1 k mr.2 else mr)
    (by
      intro s i hs
      dsimp only
      split
      · exact ⟨agentsOnly_trans hs.1 (ao_agentStep s.1 i s.2),
          (uid_agentStep s.1 i s.2).trans hs.2⟩
      · exact hs)
    (applyPerm (drawPerm rng).1 (m.agents.map fun a => a.unique_id))
    (m, (drawPerm rng).2)
    ⟨agentsOnly_refl m, rfl⟩
  obtain ⟨⟨ags, he⟩, hu⟩ := h
  refine ⟨⟨ags, ?_⟩, by rw [he], by rw [he], hu⟩
  rw [he]

theorem scheduleStep_num (m : Model) (rng : Rng) :
    (scheduleStep m rng).1.num_agents = m.num_agents := by
  obtain ⟨ags, he⟩ := (scheduleStep_shape m rng).1
  have h2 := congrArg Model.num_agents he
  simpa using h2

theorem scheduleStep_history (m : Model) (rng : Rng) :
    (scheduleStep m rng).1.history = m.history := by
  obtain ⟨ags, he⟩ := (scheduleStep_shape m rng).1
  have h2 := congrArg Model.history he
  simpa using h2

theorem scheduleStep_running (m : Model) (rng : Rng) :
    (scheduleStep m rng).1.running = m.running := by
  obtain ⟨ags, he⟩ := (scheduleStep_shape m rng).1
  have h2 := congrArg Model.running he
  simpa using h2

theorem scheduleStep_uid (m : Model) (rng : Rng) :
    (scheduleStep m rng).1.agents.map Agent.unique_id =
      m.agents.map Agent.unique_id :=
  (scheduleStep_shape m rng).2.2.2

theorem modelStep_agents (m : Model) (rng : Rng) :
    (modelStep m rng).1.agents = (scheduleStep m rng).1.agents := by
  unfold modelStep
  dsimp only
  split <;> rfl

theorem modelStep_num (m : Model) (rng : Rng) :
    (modelStep m rng).1.num_agents = m.num_agents := by
  unfold modelStep
  dsimp only
  split <;> exact scheduleStep_num m rng

theorem modelStep_history (m : Model) (rng : Rng) :
    (modelStep m rng).1.history =
      m.history ++ [snapshot (scheduleStep m rng).1] := by
  unfold modelStep
  dsimp only
  have h := scheduleStep_history m rng
  split <;> simp [h]

theorem modelStep_running (m : Model) (rng : Rng) :
    (modelStep m rng).1.running =
      (if countState SIR.Infected ((scheduleStep m rng).1.agents.map Agent.state)
          = 0 then false else m.running) := by
  unfold modelStep
  dsimp only
  split
  · rfl
  · exact scheduleStep_running m rng

/-- Quarantine invariant of the spec: a flagged agent is Infected. -/
def QInv (m : Model) : Prop :=
  ∀ a ∈ m.agents, a.is_quarantined = true → a.state = SIR.Infected

theorem mem_updateAgent {l : List Agent} {id : Nat} {f : Agent → Agent}
    {b : Agent} (hb : b ∈ updateAgent l id f) :
    ∃ a ∈ l, b = if a.unique_id = id then f a else a := by
  unfold updateAgent at hb
  obtain ⟨a, ha, he⟩ := List.mem_map.mp hb
  exact ⟨a, ha, he.symm⟩

theorem findAgent_mem {l : List Agent} {id : Nat} {a : Agent}
    (h : findAgent l id = some a) : a ∈ l :=
  List.mem_of_find?_eq_some h

theorem findAgent_uid {l : List Agent} {id : Nat} {a : Agent}
    (h : findAgent l id = some a) : a.unique_id = id := by
  have := List.find?_some h
  simpa using this

theorem found_unique {l : List Agent} {id : Nat} {a b : Agent}
    (hn : (l.map Agent.unique_id).Nodup) (hf : findAgent l id = some a)
    (hb : b ∈ l) (hbid : b.unique_id = id) : b = a :=
  List.inj_on_of_nodup_map hn hb (findAgent_mem hf)
    (by rw [hbid, findAgent_uid hf])

theorem qinv_update_status (m : Model) (id : Nat) (rng : Rng)
    (hq : QInv m) (hn : (m.agents.map Agent.unique_id).Nodup) :
    QInv (update_status m id rng).1 := by
  unfold update_status
  cases hf : findAgent m.agents id with
  | none => exact hq
  | some a =>
    dsimp only
    split
    · split
      · -- quarantined recovery: the flag is cleared together with Recovered
        intro b hb hbq
        obtain ⟨c, hc, he⟩ := mem_updateAgent hb
        by_cases hcid : c.unique_id = id
        · rw [if_pos hcid] at he
          rw [he] at hbq
          simp at hbq
        · rw [if_neg hcid] at he
          rw [he] at hbq ⊢
          exact hq c hc hbq
      · -- plain recovery: the recovering agent was not quarantined
        rename_i hcond hflag
        intro b hb hbq
        obtain ⟨c, hc, he⟩ := mem_updateAgent hb
        by_cases hcid : c.unique_id = id
        · rw [if_pos hcid] at he
          have hca : c = a := found_unique hn hf hc hcid
          rw [he] at hbq
          simp at hbq
          rw [hca] at hbq
          exact absurd hbq hflag
        · rw [if_neg hcid] at he
          rw [he] at hbq ⊢
          exact hq c hc hbq
    · exact hq

theorem qinv_move (m : Model) (id : Nat) (rng : Rng) (hq : QInv m) :
    QInv (move m id rng).1 := by
  unfold move
  cases hf : findAgent m.agents id with
  | none => exact hq
  | some a =>
    dsimp only
    split
    · cases a.pos with
      | none => exact hq
      | some p =>
        intro b hb hbq
        obtain ⟨c, hc, he⟩ := mem_updateAgent hb
        by_cases hcid : c.unique_id = id
        · rw [if_pos hcid] at he
          rw [he] at hbq ⊢
          simp at hbq ⊢
          exact hq c hc hbq
        · rw [if_neg hcid] at he
          rw [he] at hbq ⊢
          exact hq c hc hbq
    · exact hq

theorem qinv_infectOne (mr : Model × Rng) (oid : Nat) (hq : QInv mr.1) :
    QInv (infectOne mr oid).1 := by
  unfold infectOne
  cases hf : findAgent mr.1.agents oid with
  | none => exact hq
  | some o =>
    dsimp only
    split
    · split
      · intro b hb hbq
        obtain ⟨c, hc, he⟩ := mem_updateAgent hb
        by_cases hcid : c.unique_id = oid
        · rw [if_pos hcid] at he
          rw [he]
          by_cases hqe : mr.1.quarantine_enabled <;> simp [hqe]
        · rw [if_neg hcid] at he
          rw [he] at hbq ⊢
          exact hq c hc hbq
      · exact hq
    · exact hq

theorem qinv_infect (m : Model) (id : Nat) (rng : Rng) (hq : QInv m) :
    QInv (infect m id rng).1 := by
  unfold infect
  cases hf : findAgent m.agents id with
  | none => exact hq
  | some a =>
    dsimp only
    split
    · cases a.pos with
      | none => exact hq
      | some p =>
        refine foldl_inv (fun mr => QInv mr.1) infectOne ?_ _ (m, rng) hq
        intro s i hs
        exact qinv_infectOne s i hs
    · exact hq

theorem qinv_agentStep (m : Model) (id : Nat) (rng : Rng)
    (hq : QInv m) (hn : (m.agents.map Agent.unique_id).Nodup) :
    QInv (agentStep m id rng).1 := by
  unfold agentStep
  cases hf : findAgent m.agents id with
  | none => exact hq
  | some a =>
    dsimp only
    split
    · exact qinv_update_status m id rng hq hn
    · refine qinv_infect _ id _ (qinv_move _ id _ ?_)
      exact qinv_update_status m id rng hq hn

theorem qinv_scheduleStep (m : Model) (rng : Rng)
    (hq : QInv m) (hn : (m.agents.map Agent.unique_id).Nodup) :
    QInv (scheduleStep m rng).1 := by
  unfold scheduleStep
  dsimp only
  have h := foldl_inv
    (fun mr : Model × Rng => QInv mr.1 ∧
      mr.1.agents.map Agent.unique_id = m.agents.map Agent.unique_id)
    (fun mr k =>
      if (findAgent mr.1.agents k).isSome then agentStep mr.1 k mr.2 else mr)
    (by
      intro s i hs
      dsimp only
      split
      · refine ⟨qinv_agentStep s.1 i s.2 hs.1 (by rw [hs.2]; exact hn),
          (uid_agentStep s.1 i s.2).trans hs.2⟩
      · exact hs)
    (applyPerm (drawPerm rng).1 (m.agents.map fun a => a.unique_id))
    (m, (drawPerm rng).2)
    ⟨hq, rfl⟩
  exact h.1

theorem qinv_modelStep (m : Model) (rng : Rng)
    (hq : QInv m) (hn : (m.agents.map Agent.unique_id).Nodup) :
    QInv (modelStep m rng).1 := by
  intro a ha haq
  rw [modelStep_agents] at ha
  exact qinv_scheduleStep m rng hq hn a ha haq

theorem buildAgents_uid (p : Params) :
    ∀ (k i : Nat) (rng : Rng),
      (buildAgents p i k rng).1.map Agent.unique_id = List.range' i k := by
  intro k
  induction k with
  | zero => intro i rng; rfl
  | succ n ih =>
    intro i rng
    simp [buildAgents, initAgent, ih, List.range'_succ]

theorem buildAgents_flags (p : Params) :
    ∀ (k i : Nat) (rng : Rng),
      ∀ a ∈ (buildAgents p i k rng).1, a.is_quarantined = false := by
  intro k
  induction k with
  | zero => intro i rng a ha; cases ha
  | succ n ih =>
    intro i rng a ha
    rcases List.mem_cons.mp ha with h | h
    · rw [h]; rfl
    · exact ih (i + 1) _ a h

/-- The master structural invariant of a run of the strategies model:
identities are 0..N-1 in insertion order, and any quarantined agent is
Infected. -/
def Inv (m : Model) : Prop :=
  m.agents.map Agent.unique_id = List.range m.num_agents ∧ QInv m

theorem inv_mkModel (p : Params) (rng : Rng) : Inv (mkModel p rng).1 := by
  constructor
  · show (buildAgents p 0 p.N rng).1.map Agent.unique_id = List.range p.N
    rw [buildAgents_uid, List.range_eq_range']
  · intro a ha haq
    have := buildAgents_flags p p.N 0 rng a ha
    rw [this] at haq
    cases haq

theorem inv_nodup {m : Model} (hi : Inv m) :
    (m.agents.map Agent.unique_id).Nodup := by
  rw [hi.1]
  exact List.nodup_range m.num_agents

theorem inv_modelStep (m : Model) (rng : Rng) (hi : Inv m) :
    Inv (modelStep m rng).1 := by
  refine ⟨?_, qinv_modelStep m rng hi.2 (inv_nodup hi)⟩
  rw [modelStep_agents, scheduleStep_uid, modelStep_num]
  exact hi.1

theorem run_inv (p : Params) (rng : Rng) : ∀ n, Inv (runModel p rng n).1 := by
  intro n
  induction n with
  | zero => exact inv_mkModel p rng
  | succ k ih =>
    show Inv (modelStep (runModel p rng k).1 (runModel p rng k).2).1
    exact inv_modelStep _ _ ih

theorem run_num (p : Params) (rng : Rng) :
    ∀ n, (runModel p rng n).1.num_agents = p.N := by
  intro n
  induction n with
  | zero => rfl
  | succ k ih =>
    show (modelStep (runModel p rng k).1 (runModel p rng k).2).1.num_agents = p.N
    rw [modelStep_num]
    exact ih

/-- Conservation of the recorded rows: every collected snapshot sums to
the population size. -/
def HistInv (m : Model) : Prop :=
  ∀ t ∈ m.history, t.1 + t.2.1 + t.2.2 = m.num_agents

theorem snapshot_sum (m : Model) :
    (snapshot m).1 + (snapshot m).2.1 + (snapshot m).2.2 = m.agents.length := by
  have h := countState_partition (m.agents.map Agent.state)
  simpa [snapshot] using h

theorem histInv_modelStep (m : Model) (rng : Rng)
    (hh : HistInv m) (hi : Inv m) : HistInv (modelStep m rng).1 := by
  intro t ht
  rw [modelStep_history] at ht
  rw [modelStep_num]
  rcases List.mem_append.mp ht with h | h
  · exact hh t h
  · have he : t = snapshot (scheduleStep m rng).1 := by simpa using h
    subst he
    have hs := snapshot_sum (scheduleStep m rng).1
    have hlen : (scheduleStep m rng).1.agents.length = m.num_agents := by
      have h1 := congrArg List.length (scheduleStep_uid m rng)
      simp only [List.length_map] at h1
      rw [h1]
      have h2 := congrArg List.length hi.1
      simpa using h2
    exact hs.trans hlen

theorem run_histInv (p : Params) (rng : Rng) :
    ∀ n, HistInv (runModel p rng n).1 := by
  intro n
  induction n with
  | zero => intro t ht; cases ht
  | succ k ih =>
    show HistInv (modelStep (runModel p rng k).1 (runModel p rng k).2).1
    exact histInv_modelStep _ _ ih (run_inv p rng k)

/-- Observable state of the agent with identity j (through the shared
object reference). -/
def stateOf (m : Model) (j : Nat) : Option SIR :=
  (findAgent m.agents j).map Agent.state

theorem stateOf_withAgent_keep (m : Model) (id j : Nat) (f : Agent → Agent)
    (hu : ∀ b, (f b).unique_id = b.unique_id)
    (hs : ∀ b, b.state = SIR.Recovered → (f b).state = SIR.Recovered)
    (h : stateOf m j = some SIR.Recovered) :
    stateOf (withAgent m id f) j = some SIR.Recovered := by
  unfold stateOf at h ⊢
  unfold withAgent
  dsimp only
  rw [findAgent_updateAgent m.agents id j f hu]
  cases hj : findAgent m.agents j with
  | none => rw [hj] at h; cases h
  | some b =>
    rw [hj] at h
    have hb : b.state = SIR.Recovered := by simpa using h
    by_cases hc : b.unique_id = id
    · simp [hc, hs b hb]
    · simp [hc, hb]

theorem rstays_update_status (m : Model) (id : Nat) (rng : Rng) (j : Nat)
    (h : stateOf m j = some SIR.Recovered) :
    stateOf (update_status m id rng).1 j = some SIR.Recovered := by
  unfold update_status
  cases hf : findAgent m.agents id with
  | none => exact h
  | some a =>
    dsimp only
    split
    · split
      · exact stateOf_withAgent_keep m id j _ (fun b => rfl) (fun b hb => rfl) h
      · exact stateOf_withAgent_keep m id j _ (fun b => rfl) (fun b hb => rfl) h
    · exact h

theorem rstays_move (m : Model) (id : Nat) (rng : Rng) (j : Nat)
    (h : stateOf m j = some SIR.Recovered) :
    stateOf (move m id rng).1 j = some SIR.Recovered := by
  unfold move
  cases hf : findAgent m.agents id with
  | none => exact h
  | some a =>
    dsimp only
    split
    · cases a.pos with
      | none => exact h
      | some p =>
        exact stateOf_withAgent_keep m id j _ (fun b => rfl) (fun b hb => hb) h
    · exact h

theorem rstays_infectOne (mr : Model × Rng) (oid j : Nat)
    (h : stateOf mr.1 j = some SIR.Recovered) :
    stateOf (infectOne mr oid).1 j = some SIR.Recovered := by
  unfold infectOne
  cases hf : findAgent mr.1.agents oid with
  | none => exact h
  | some o =>
    dsimp only
    split
    · rename_i ho
      split
      · by_cases hj : j = oid
        · exfalso
          subst hj
          unfold stateOf at h
          rw [hf] at h
          have h2 : o.state = SIR.Recovered := by simpa using h
          rw [ho] at h2
          cases h2
        · unfold stateOf at h ⊢
          unfold withAgent
          dsimp only
          rw [findAgent_updateAgent mr.1.agents oid j _ (fun b => by split <;> rfl)]
          cases hjf : findAgent mr.1.agents j with
          | none => rw [hjf] at h; cases h
          | some b =>
            rw [hjf] at h
            have hbid : b.unique_id = j := findAgent_uid hjf
            have hneq : ¬ (b.unique_id = oid) := by rw [hbid]; exact hj
            have hb : b.state = SIR.Recovered := by simpa using h
            simp [hneq, hb]
      · exact h
    · exact h

theorem rstays_infect (m : Model) (id : Nat) (rng : Rng) (j : Nat)
    (h : stateOf m j = some SIR.Recovered) :
    stateOf (infect m id rng).1 j = some SIR.Recovered := by
  unfold infect
  cases hf : findAgent m.agents id with
  | none => exact h
  | some a =>
    dsimp only
    split
    · cases a.pos with
      | none => exact h
      | some p =>
        refine foldl_inv (fun mr => stateOf mr.1 j = some SIR.Recovered)
          infectOne ?_ _ (m, rng) h
        intro s i hs
        exact rstays_infectOne s i j hs
    · exact h

theorem rstays_agentStep (m : Model) (id : Nat) (rng : Rng) (j : Nat)
    (h : stateOf m j = some SIR.Recovered) :
    stateOf (agentStep m id rng).1 j = some SIR.Recovered := by
  unfold agentStep
  cases hf : findAgent m.agents id with
  | none => exact h
  | some a =>
    dsimp only
    split
    · exact rstays_update_status m id rng j h
    · exact rstays_infect _ id _ j (rstays_move _ id _ j
        (rstays_update_status m id rng j h))

theorem rstays_scheduleStep (m : Model) (rng : Rng) (j : Nat)
    (h : stateOf m j = some SIR.Recovered) :
    stateOf (scheduleStep m rng).1 j = some SIR.Recovered := by
  unfold scheduleStep
  dsimp only
  exact foldl_inv (fun mr : Model × Rng => stateOf mr.1 j = some SIR.Recovered)
    (fun mr k =>
      if (findAgent mr.1.agents k).isSome then agentStep mr.1 k mr.2 else mr)
    (by
      intro s i hs
      dsimp only
      split
      · exact rstays_agentStep s.1 i s.2 j hs
      · exact hs)
    (applyPerm (drawPerm rng).1 (m.agents.map fun a => a.unique_id))
    (m, (drawPerm rng).2)
    h

theorem rstays_modelStep (m : Model) (rng : Rng) (j : Nat)
    (h : stateOf m j = some SIR.Recovered) :
    stateOf (modelStep m rng).1 j = some SIR.Recovered := by
  unfold stateOf
  rw [modelStep_agents]
  exact rstays_scheduleStep m rng j h

theorem run_rstays (p : Params) (rng : Rng) (n : Nat) (j : Nat)
    (h : stateOf (runModel p rng n).1 j = some SIR.Recovered) :
    ∀ k, stateOf (runModel p rng (n + k)).1 j = some SIR.Recovered := by
  intro k
  induction k with
  | zero => exact h
  | succ t ih =>
    show stateOf (modelStep (runModel p rng (n + t)).1
      (runModel p rng (n + t)).2).1 j = some SIR.Recovered
    exact rstays_modelStep _ _ j ih

theorem run_running_mono (p : Params) (rng : Rng) :
    ∀ n k, (runModel p rng (n + k)).1.running = true →
      (runModel p rng n).1.running = true := by
  intro n k
  induction k with
  | zero => exact id
  | succ t ih =>
    intro h
    have hr := modelStep_running (runModel p rng (n + t)).1
      (runModel p rng (n + t)).2
    have h2 : (runModel p rng (n + (t + 1))).1.running =
        (modelStep (runModel p rng (n + t)).1
          (runModel p rng (n + t)).2).1.running := rfl
    rw [h2, hr] at h
    split at h
    · cases h
    · exact ih h

end Virus

namespace Final

theorem fin_map_uid_updateAgent (l : List Agent) (id : Nat) (f : Agent → Agent)
    (h : ∀ b, (f b).unique_id = b.unique_id) :
    (updateAgent l id f).map Agent.unique_id = l.map Agent.unique_id := by
  unfold updateAgent
  rw [List.map_map]
  refine List.map_congr_left ?_
  intro a _
  by_cases hc : a.unique_id = id <;> simp [hc, h]

theorem fin_findAgent_updateAgent (l : List Agent) (id j : Nat) (f : Agent → Agent)
    (hu : ∀ b, (f b).unique_id = b.unique_id) :
    findAgent (updateAgent l id f) j =
      (findAgent l j).map (fun a => if a.unique_id = id then f a else a) := by
  unfold findAgent updateAgent
  rw [List.find?_map]
  have h2 : ((fun a : Agent => decide (a.unique_id = j)) ∘
      (fun a => if a.unique_id = id then f a else a)) =
      (fun a : Agent => decide (a.unique_id = j)) := by
    funext a
    by_cases hc : a.unique_id = id <;> simp [hc, hu]
  rw [h2]

theorem fin_findAgent_uid {l : List Agent} {id : Nat} {a : Agent}
    (h : findAgent l id = some a) : a.unique_id = id := by
  have := List.find?_some h
  simpa using this

/-- Every agent-level operation only rewrites the agents list. -/
def AgentsOnly (m mo : Model) : Prop :=
  ∃ ags, mo = { m with agents := ags }

theorem fin_agentsOnly_refl (m : Model) : AgentsOnly m m := ⟨m.agents, rfl⟩

theorem fin_agentsOnly_trans {a b c : Model} (h1 : AgentsOnly a b)
    (h2 : AgentsOnly b c) : AgentsOnly a c := by
  obtain ⟨x, rfl⟩ := h1
  obtain ⟨y, rfl⟩ := h2
  exact ⟨y, rfl⟩

theorem fin_ao_update_status (m : Model) (id : Nat) (rng : Rng) :
    AgentsOnly m (update_status m id rng).1 := by
  unfold update_status
  cases h : findAgent m.agents id with
  | none => exact fin_agentsOnly_refl m
  | some a =>
    dsimp only
    split
    · exact ⟨_, rfl⟩
    · exact fin_agentsOnly_refl m

theorem fin_uid_update_status (m : Model) (id : Nat) (rng : Rng) :
    (update_status m id rng).1.agents.map Agent.unique_id =
      m.agents.map Agent.unique_id := by
  unfold update_status
  cases h : findAgent m.agents id with
  | none => rfl
  | some a =>
    dsimp only
    split
    · exact fin_map_uid_updateAgent _ _ _ (fun b => rfl)
    · rfl

theorem fin_ao_move (m : Model) (id : Nat) (rng : Rng) :
    AgentsOnly m (move m id rng).1 := by
  unfold move
  cases h : findAgent m.agents id with
  | none => exact fin_agentsOnly_refl m
  | some a =>
    dsimp only
    cases a.pos with
    | none => exact fin_agentsOnly_refl m
    | some p => exact ⟨_, rfl⟩

theorem fin_uid_move (m : Model) (id : Nat) (rng : Rng) :
    (move m id rng).1.agents.map Agent.unique_id =
      m.agents.map Agent.unique_id := by
  unfold move
  cases h : findAgent m.agents id with
  | none => rfl
  | some a =>
    dsimp only
    cases a.pos with
    | none => rfl
    | some p => exact fin_map_uid_updateAgent _ _ _ (fun b => rfl)

theorem fin_ao_infectOne (mr : Model × Rng) (oid : Nat) :
    AgentsOnly mr.1 (infectOne mr oid).1 := by
  unfold infectOne
  cases h : findAgent mr.1.agents oid with
  | none => exact fin_agentsOnly_refl mr.1
  | some o =>
    dsimp only
    split
    · split
      · exact ⟨_, rfl⟩
      · exact fin_agentsOnly_refl mr.1
    · exact fin_agentsOnly_refl mr.1

theorem fin_uid_infectOne (mr : Model × Rng) (oid : Nat) :
    (infectOne mr oid).1.agents.map Agent.unique_id =
      mr.1.agents.map Agent.unique_id := by
  unfold infectOne
  cases h : findAgent mr.1.agents oid with
  | none => rfl
  | some o =>
    dsimp only
    split
    · split
      · exact fin_map_uid_updateAgent _ _ _ (fun b => rfl)
      · rfl
    · rfl

theorem fin_ao_infect (m : Model) (id : Nat) (rng : Rng) :
    AgentsOnly m (infect m id rng).1 := by
  unfold infect
  cases h : findAgent m.agents id with
  | none => exact fin_agentsOnly_refl m
  | some a =>
    dsimp only
    split
    · split
      · exact fin_agentsOnly_refl m
      · split
        · refine foldl_inv (fun mr => AgentsOnly m mr.1) infectOne ?_ _ (m, rng)
            (fin_agentsOnly_refl m)
          intro s i hs
          exact fin_agentsOnly_trans hs (fin_ao_infectOne s i)
        · exact fin_agentsOnly_refl m
    · exact fin_agentsOnly_refl m

theorem fin_uid_infect (m : Model) (id : Nat) (rng : Rng) :
    (infect m id rng).1.agents.map Agent.unique_id =
      m.agents.map Agent.unique_id := by
  unfold infect
  cases h : findAgent m.agents id with
  | none => rfl
  | some a =>
    dsimp only
    split
    · split
      · rfl
      · split
        · refine foldl_inv
            (fun mr => mr.1.agents.map Agent.unique_id = m.agents.map Agent.unique_id)
            infectOne ?_ _ (m, rng) rfl
          intro s i hs
          rw [fin_uid_infectOne s i, hs]
        · rfl
    · rfl

theorem fin_ao_agentStep (m : Model) (id : Nat) (rng : Rng) :
    AgentsOnly m (agentStep m id rng).1 := by
  unfold agentStep
  exact fin_agentsOnly_trans
    (fin_agentsOnly_trans (fin_ao_update_status m id rng) (fin_ao_move _ id _))
    (fin_ao_infect _ id _)

theorem fin_uid_agentStep (m : Model) (id : Nat) (rng : Rng) :
    (agentStep m id rng).1.agents.map Agent.unique_id =
      m.agents.map Agent.unique_id := by
  unfold agentStep
  rw [fin_uid_infect, fin_uid_move, fin_uid_update_status]

theorem fin_scheduleStep_shape (m : Model) (rng : Rng) :
    AgentsOnly m { (scheduleStep m rng).1 with
        steps := m.steps, time := m.time } ∧
    (scheduleStep m rng).1.steps = m.steps + 1 ∧
    (scheduleStep m rng).1.time = m.time + 1 ∧
    (scheduleStep m rng).1.agents.map Agent.unique_id =
      m.agents.map Agent.unique_id := by
  unfold scheduleStep
  dsimp only
  have h := foldl_inv
    (fun mr : Model × Rng => AgentsOnly m mr.1 ∧
      mr.1.agents.map Agent.unique_id = m.agents.map Agent.unique_id)
    (fun mr k =>
      if (findAgent mr.1.agents k).isSome then agentStep mr.1 k mr.2 else mr)
    (by
      intro s i hs
      dsimp only
      split
      · exact ⟨fin_agentsOnly_trans hs.1 (fin_ao_agentStep s.1 i s.2),
          (fin_uid_agentStep s.1 i s.2).trans hs.2⟩
      · exact hs)
    (applyPerm (drawPerm rng).1 (m.agents.map fun a => a.unique_id))
    (m, (drawPerm rng).2)
    ⟨fin_agentsOnly_refl m, rfl⟩
  obtain ⟨⟨ags, he⟩, hu⟩ := h
  refine ⟨⟨ags, ?_⟩, by rw [he], by rw [he], hu⟩
  rw [he]

theorem fin_scheduleStep_num (m : Model) (rng : Rng) :
    (scheduleStep m rng).1.num_agents = m.num_agents := by
  obtain ⟨ags, he⟩ := (fin_scheduleStep_shape m rng).1
  have h2 := congrArg Model.num_agents he
  simpa using h2

theorem fin_scheduleStep_history (m : Model) (rng : Rng) :
    (scheduleStep m rng).1.history = m.history := by
  obtain ⟨ags, he⟩ := (fin_scheduleStep_shape m rng).1
  have h2 := congrArg Model.history he
  simpa using h2

theorem fin_scheduleStep_running (m : Model) (rng : Rng) :
    (scheduleStep m rng).1.running = m.running := by
  obtain ⟨ags, he⟩ := (fin_scheduleStep_shape m rng).1
  have h2 := congrArg Model.running he
  simpa using h2

theorem fin_scheduleStep_uid (m : Model) (rng : Rng) :
    (scheduleStep m rng).1.agents.map Agent.unique_id =
      m.agents.map Agent.unique_id :=
  (fin_scheduleStep_shape m rng).2.2.2

theorem fin_modelStep_agents (m : Model) (rng : Rng) :
    (modelStep m rng).1.agents = (scheduleStep m rng).1.agents := by
  unfold modelStep
  dsimp only
  split <;> rfl

theorem fin_modelStep_num (m : Model) (rng : Rng) :
    (modelStep m rng).1.num_agents = m.num_agents := by
  unfold modelStep
  dsimp only
  split <;> exact fin_scheduleStep_num m rng

theorem fin_modelStep_history (m : Model) (rng : Rng) :
    (modelStep m rng).1.history =
      m.history ++ [snapshot (scheduleStep m rng).1] := by
  unfold modelStep
  dsimp only
  have h := fin_scheduleStep_history m rng
  split <;> simp [h]

theorem fin_modelStep_running (m : Model) (rng : Rng) :
    (modelStep m rng).1.running =
      (if Virus.countState SIR.Infected
          ((scheduleStep m rng).1.agents.map Agent.state)
          = 0 then false else m.running) := by
  unfold modelStep
  dsimp only
  split
  · rfl
  · exact fin_scheduleStep_running m rng

theorem fin_buildAgents_uid (p : Params) :
    ∀ (k i : Nat) (rng : Rng),
      (buildAgents p i k rng).1.map Agent.unique_id = List.range' i k := by
  intro k
  induction k with
  | zero => intro i rng; rfl
  | succ n ih =>
    intro i rng
    simp [buildAgents, initAgent, ih, List.range'_succ]

/-- The structural invariant of a run of the FINAL model. -/
def Inv (m : Model) : Prop :=
  m.agents.map Agent.unique_id = List.range m.num_agents

theorem fin_inv_mkModel (p : Params) (rng : Rng) : Inv (mkModel p rng).1 := by
  show (buildAgents p 0 p.N rng).1.map Agent.unique_id = List.range p.N
  rw [fin_buildAgents_uid, List.range_eq_range']

theorem fin_inv_modelStep (m : Model) (rng : Rng) (hi : Inv m) :
    Inv (modelStep m rng).1 := by
  unfold Inv
  rw [fin_modelStep_agents, fin_scheduleStep_uid, fin_modelStep_num]
  exact hi

theorem fin_run_inv (p : Params) (rng : Rng) : ∀ n, Inv (runModel p rng n).1 := by
  intro n
  induction n with
  | zero => exact fin_inv_mkModel p rng
  | succ k ih =>
    show Inv (modelStep (runModel p rng k).1 (runModel p rng k).2).1
    exact fin_inv_modelStep _ _ ih

theorem fin_run_num (p : Params) (rng : Rng) :
    ∀ n, (runModel p rng n).1.num_agents = p.N := by
  intro n
  induction n with
  | zero => rfl
  | succ k ih =>
    show (modelStep (runModel p rng k).1 (runModel p rng k).2).1.num_agents = p.N
    rw [fin_modelStep_num]
    exact ih

/-- Conservation of the recorded rows in the FINAL model. -/
def HistInv (m : Model) : Prop :=
  ∀ t ∈ m.history, t.1 + t.2.1 + t.2.2 = m.num_agents

theorem fin_snapshot_sum (m : Model) :
    (snapshot m).1 + (snapshot m).2.1 + (snapshot m).2.2 = m.agents.length := by
  have h := Virus.countState_partition (m.agents.map Agent.state)
  simpa [snapshot] using h

theorem fin_histInv_modelStep (m : Model) (rng : Rng)
    (hh : HistInv m) (hi : Inv m) : HistInv (modelStep m rng).1 := by
  intro t ht
  rw [fin_modelStep_history] at ht
  rw [fin_modelStep_num]
  rcases List.mem_append.mp ht with h | h
  · exact hh t h
  · have he : t = snapshot (scheduleStep m rng).1 := by simpa using h
    subst he
    have hs := fin_snapshot_sum (scheduleStep m rng).1
    have hlen : (scheduleStep m rng).1.agents.length = m.num_agents := by
      have h1 := congrArg List.length (fin_scheduleStep_uid m rng)
      simp only [List.length_map] at h1
      rw [h1]
      have h2 := congrArg List.length hi
      simpa using h2
    exact hs.trans hlen

theorem fin_run_histInv (p : Params) (rng : Rng) :
    ∀ n, HistInv (runModel p rng n).1 := by
  intro n
  induction n with
  | zero => intro t ht; cases ht
  | succ k ih =>
    show HistInv (modelStep (runModel p rng k).1 (runModel p rng k).2).1
    exact fin_histInv_modelStep _ _ ih (fin_run_inv p rng k)

/-- Observable state of the agent with identity j in the FINAL model. -/
def stateOf (m : Model) (j : Nat) : Option SIR :=
  (findAgent m.agents j).map Agent.state

theorem fin_stateOf_withAgent_keep (m : Model) (id j : Nat) (f : Agent → Agent)
    (hu : ∀ b, (f b).unique_id = b.unique_id)
    (hs : ∀ b, b.state = SIR.Recovered → (f b).state = SIR.Recovered)
    (h : stateOf m j = some SIR.Recovered) :
    stateOf (withAgent m id f) j = some SIR.Recovered := by
  unfold stateOf at h ⊢
  unfold withAgent
  dsimp only
  rw [fin_findAgent_updateAgent m.agents id j f hu]
  cases hj : findAgent m.agents j with
  | none => rw [hj] at h; cases h
  | some b =>
    rw [hj] at h
    have hb : b.state = SIR.Recovered := by simpa using h
    by_cases hc : b.unique_id = id
    · simp [hc, hs b hb]
    · simp [hc, hb]

theorem fin_rstays_update_status (m : Model) (id : Nat) (rng : Rng) (j : Nat)
    (h : stateOf m j = some SIR.Recovered) :
    stateOf (update_status m id rng).1 j = some SIR.Recovered := by
  unfold update_status
  cases hf : findAgent m.agents id with
  | none => exact h
  | some a =>
    dsimp only
    split
    · exact fin_stateOf_withAgent_keep m id j _ (fun b => rfl) (fun b hb => rfl) h
    · exact h

theorem fin_rstays_move (m : Model) (id : Nat) (rng : Rng) (j : Nat)
    (h : stateOf m j = some SIR.Recovered) :
    stateOf (move m id rng).1 j = some SIR.Recovered := by
  unfold move
  cases hf : findAgent m.agents id with
  | none => exact h
  | some a =>
    dsimp only
    cases a.pos with
    | none => exact h
    | some p =>
      exact fin_stateOf_withAgent_keep m id j _ (fun b => rfl) (fun b hb => hb) h

theorem fin_rstays_infectOne (mr : Model × Rng) (oid j : Nat)
    (h : stateOf mr.1 j = some SIR.Recovered) :
    stateOf (infectOne mr oid).1 j = some SIR.Recovered := by
  unfold infectOne
  cases hf : findAgent mr.1.agents oid with
  | none => exact h
  | some o =>
    dsimp only
    split
    · rename_i ho
      split
      · by_cases hj : j = oid
        · exfalso
          subst hj
          unfold stateOf at h
          rw [hf] at h
          have h2 : o.state = SIR.Recovered := by simpa using h
          rw [ho] at h2
          cases h2
        · unfold stateOf at h ⊢
          unfold withAgent
          dsimp only
          rw [fin_findAgent_updateAgent mr.1.agents oid j
            (fun b => { b with state := SIR.Infected,
                               infection_time := mr.1.time }) (fun b => rfl)]
          cases hjf : findAgent mr.1.agents j with
          | none => rw [hjf] at h; cases h
          | some b =>
            rw [hjf] at h
            have hbid : b.unique_id = j := fin_findAgent_uid hjf
            have hneq : ¬ (b.unique_id = oid) := by rw [hbid]; exact hj
            have hb : b.state = SIR.Recovered := by simpa using h
            simp [hneq, hb]
      · exact h
    · exact h

theorem fin_rstays_infect (m : Model) (id : Nat) (rng : Rng) (j : Nat)
    (h : stateOf m j = some SIR.Recovered) :
    stateOf (infect m id rng).1 j = some SIR.Recovered := by
  unfold infect
  cases hf : findAgent m.agents id with
  | none => exact h
  | some a =>
    dsimp only
    split
    · split
      · exact h
      · split
        · refine foldl_inv (fun mr => stateOf mr.1 j = some SIR.Recovered)
            infectOne ?_ _ (m, rng) h
          intro s i hs
          exact fin_rstays_infectOne s i j hs
        · exact h
    · exact h

theorem fin_rstays_agentStep (m : Model) (id : Nat) (rng : Rng) (j : Nat)
    (h : stateOf m j = some SIR.Recovered) :
    stateOf (agentStep m id rng).1 j = some SIR.Recovered := by
  unfold agentStep
  exact fin_rstays_infect _ id _ j (fin_rstays_move _ id _ j
    (fin_rstays_update_status m id rng j h))

theorem fin_rstays_scheduleStep (m : Model) (rng : Rng) (j : Nat)
    (h : stateOf m j = some SIR.Recovered) :
    stateOf (scheduleStep m rng).1 j = some SIR.Recovered := by
  unfold scheduleStep
  dsimp only
  exact foldl_inv (fun mr : Model × Rng => stateOf mr.1 j = some SIR.Recovered)
    (fun mr k =>
      if (findAgent mr.1.agents k).isSome then agentStep mr.1 k mr.2 else mr)
    (by
      intro s i hs
      dsimp only
      split
      · exact fin_rstays_agentStep s.1 i s.2 j hs
      · exact hs)
    (applyPerm (drawPerm rng).1 (m.agents.map fun a => a.unique_id))
    (m, (drawPerm rng).2)
    h

theorem fin_rstays_modelStep (m : Model) (rng : Rng) (j : Nat)
    (h : stateOf m j = some SIR.Recovered) :
    stateOf (modelStep m rng).1 j = some SIR.Recovered := by
  unfold stateOf
  rw [fin_modelStep_agents]
  exact fin_rstays_scheduleStep m rng j h

theorem fin_run_rstays (p : Params) (rng : Rng) (n : Nat) (j : Nat)
    (h : stateOf (runModel p rng n).1 j = some SIR.Recovered) :
    ∀ k, stateOf (runModel p rng (n + k)).1 j = some SIR.Recovered := by
  intro k
  induction k with
  | zero => exact h
  | succ t ih =>
    show stateOf (modelStep (runModel p rng (n + t)).1
      (runModel p rng (n + t)).2).1 j = some SIR.Recovered
    exact fin_rstays_modelStep _ _ j ih

theorem fin_run_running_mono (p : Params) (rng : Rng) :
    ∀ n k, (runModel p rng (n + k)).1.running = true →
      (runModel p rng n).1.running = true := by
  intro n k
  induction k with
  | zero => exact id
  | succ t ih =>
    intro h
    have hr := fin_modelStep_running (runModel p rng (n + t)).1
      (runModel p rng (n + t)).2
    have h2 : (runModel p rng (n + (t + 1))).1.running =
        (modelStep (runModel p rng (n + t)).1
          (runModel p rng (n + t)).2).1.running := rfl
    rw [h2, hr] at h
    split at h
    · cases h
    · exact ih h

end Final

namespace Sched

theorem agent_buffer_run_append {α : Type} (act : Pop α → Nat → Pop α) :
    ∀ (l₁ l₂ : List Nat) (pop : Pop α),
      agent_buffer_run act (l₁ ++ l₂) pop =
        ((agent_buffer_run act l₂ (agent_buffer_run act l₁ pop).1).1,
         (agent_buffer_run act l₁ pop).2 ++
           (agent_buffer_run act l₂ (agent_buffer_run act l₁ pop).1).2) := by
  intro l₁
  induction l₁ with
  | nil => intro l₂ pop; simp [agent_buffer_run]
  | cons k ks ih =>
    intro l₂ pop
    by_cases h : k ∈ pop.map Prod.fst
    · simp [agent_buffer_run, h, ih]
    · simp [agent_buffer_run, h, ih]

theorem agent_buffer_run_sublist {α : Type} (act : Pop α → Nat → Pop α) :
    ∀ (ks : List Nat) (pop : Pop α),
      (agent_buffer_run act ks pop).2.Sublist ks := by
  intro ks
  induction ks with
  | nil => intro pop; exact List.Sublist.refl _
  | cons k t ih =>
    intro pop
    show (if k ∈ pop.map Prod.fst then _ else _ : Pop α × List Nat).2.Sublist _
    split
    · exact (ih (act pop k)).cons₂ k
    · exact (ih pop).cons k

theorem agent_buffer_run_skip {α : Type} (act : Pop α → Nat → Pop α)
    (k : Nat) (l : List Nat) (pop : Pop α) (h : k ∉ pop.map Prod.fst) :
    agent_buffer_run act (k :: l) pop = agent_buffer_run act l pop := by
  simp [agent_buffer_run, h]

theorem agent_buffer_run_hit {α : Type} (act : Pop α → Nat → Pop α)
    (k : Nat) (l : List Nat) (pop : Pop α) (h : k ∈ pop.map Prod.fst) :
    agent_buffer_run act (k :: l) pop =
      ((agent_buffer_run act l (act pop k)).1,
       k :: (agent_buffer_run act l (act pop k)).2) := by
  simp [agent_buffer_run, h]

theorem agent_buffer_run_mem_iff {α : Type} (act : Pop α → Nat → Pop α)
    (l₁ l₂ : List Nat) (k : Nat) (pop : Pop α)
    (h1 : k ∉ l₁) (h2 : k ∉ l₂) :
    (k ∈ (agent_buffer_run act (l₁ ++ k :: l₂) pop).2 ↔
      k ∈ (agent_buffer_run act l₁ pop).1.map Prod.fst) := by
  rw [agent_buffer_run_append]
  show k ∈ _ ++ _ ↔ _
  rw [List.mem_append]
  constructor
  · rintro (h | h)
    · exact absurd ((agent_buffer_run_sublist act l₁ pop).mem h) h1
    · by_cases hp : k ∈ (agent_buffer_run act l₁ pop).1.map Prod.fst
      · exact hp
      · rw [agent_buffer_run_skip act k l₂ _ hp] at h
        exact absurd ((agent_buffer_run_sublist act l₂ _).mem h) h2
  · intro hp
    right
    rw [agent_buffer_run_hit act k l₂ _ hp]
    exact List.mem_cons_self k _

theorem agent_buffer_run_all {α : Type} (act : Pop α → Nat → Pop α)
    (hpres : ∀ (q : Pop α) (j : Nat), (act q j).map Prod.fst = q.map Prod.fst) :
    ∀ (ks : List Nat) (pop : Pop α),
      (∀ x ∈ ks, x ∈ pop.map Prod.fst) →
      (agent_buffer_run act ks pop).2 = ks := by
  intro ks
  induction ks with
  | nil => intro pop h; rfl
  | cons k t ih =>
    intro pop h
    have hk : k ∈ pop.map Prod.fst := h k (List.mem_cons_self k t)
    rw [agent_buffer_run_hit act k t pop hk]
    have ht : ∀ x ∈ t, x ∈ (act pop k).map Prod.fst := by
      intro x hx
      rw [hpres]
      exact h x (List.mem_cons_of_mem k hx)
    rw [ih (act pop k) ht]

end Sched

/-! Auxiliary facts about stream consumption and the initial seeding. -/

theorem drawFloat_tail (rng : Rng) : (drawFloat rng).2 = rng.drop 1 := by
  cases rng with
  | nil => rfl
  | cons v t => cases v <;> rfl

theorem drawNat_tail (n : Nat) (rng : Rng) : (drawNat n rng).2 = rng.drop 1 := by
  cases rng with
  | nil => rfl
  | cons v t => cases v <;> rfl

theorem drawPerm_tail (rng : Rng) : (drawPerm rng).2 = rng.drop 1 := by
  cases rng with
  | nil => rfl
  | cons v t => cases v <;> rfl

/-- A well-formed stream: every float draw is non-negative (the
`random.random()` contract returns values in [0,1)). -/
def wfOne : RVal → Bool
  | RVal.flt q => decide (0 ≤ q)
  | _ => true

/-- Well-formedness of a whole stream. -/
abbrev WF (rng : Rng) : Prop := ∀ v ∈ rng, wfOne v = true

theorem wf_nonneg {rng : Rng} (h : WF rng) : 0 ≤ (drawFloat rng).1 := by
  cases rng with
  | nil => exact le_refl 0
  | cons v t =>
    cases v with
    | flt q =>
      have h2 := h (RVal.flt q) (List.mem_cons_self _ _)
      simpa [wfOne] using h2
    | nat n => exact le_refl 0
    | perm q => exact le_refl 0

theorem wf_drop (n : Nat) {rng : Rng} (h : WF rng) : WF (rng.drop n) := by
  intro x hx
  exact h x (List.mem_of_mem_drop hx)

theorem initAgent_rng (p : Virus.Params) (i : Nat) (rng : Rng) :
    (Virus.initAgent p i rng).2 = rng.drop 3 := by
  show (drawNat p.height (drawNat p.width (drawFloat rng).2).2).2 = rng.drop 3
  rw [drawNat_tail, drawNat_tail, drawFloat_tail, List.drop_drop, List.drop_drop]

theorem buildAgents_getElem (p : Virus.Params) :
    ∀ (k i : Nat) (rng : Rng) (j : Nat), j < k →
      (Virus.buildAgents p i k rng).1[j]? =
        some (Virus.initAgent p (i + j) (rng.drop (3 * j))).1 := by
  intro k
  induction k with
  | zero => intro i rng j h; exact absurd h (Nat.not_lt_zero j)
  | succ n ih =>
    intro i rng j h
    cases j with
    | zero => simp [Virus.buildAgents]
    | succ t =>
      have h2 : t < n := Nat.lt_of_succ_lt_succ h
      show ((Virus.initAgent p i rng).1 ::
        (Virus.buildAgents p (i + 1) n (Virus.initAgent p i rng).2).1)[t + 1]? = _
      rw [List.getElem?_cons_succ]
      rw [ih (i + 1) (Virus.initAgent p i rng).2 t h2]
      rw [initAgent_rng, List.drop_drop]
      have e1 : i + 1 + t = i + (t + 1) := by omega
      have e2 : 3 + 3 * t = 3 * (t + 1) := by omega
      rw [e1, e2]

theorem initAgent_state_iff (p : Virus.Params) (i : Nat) (rng : Rng) :
    ((Virus.initAgent p i rng).1.state = SIR.Infected ↔
      (¬ ((drawFloat rng).1 < p.initial_vaccinated_rate) ∧
        i < p.initial_infected + Virus.vaccOffset p)) := by
  unfold Virus.initAgent
  dsimp only
  by_cases hv : (drawFloat rng).1 < p.initial_vaccinated_rate
  · by_cases hi : i < p.initial_infected + Virus.vaccOffset p <;> simp [hv, hi]
  · by_cases hi : i < p.initial_infected + Virus.vaccOffset p <;> simp [hv, hi]

theorem countState_cons (s x : SIR) (l : List SIR) :
    Virus.countState s (x :: l) =
      (if x = s then 1 else 0) + Virus.countState s l := by
  by_cases h : x = s <;>
    simp [Virus.countState, List.filter_cons, h, Nat.add_comm]

theorem vaccOffset_zero (p : Virus.Params)
    (hr : p.initial_vaccinated_rate = 0) : Virus.vaccOffset p = 0 := by
  unfold Virus.vaccOffset
  rw [hr, mul_zero]
  rfl

theorem count_infected_build (p : Virus.Params)
    (hr : p.initial_vaccinated_rate = 0) :
    ∀ (k i : Nat) (rng : Rng), WF rng →
      Virus.countState SIR.Infected
        ((Virus.buildAgents p i k rng).1.map Virus.Agent.state) =
      ((List.range' i k).filter
        (fun x => decide (x < p.initial_infected + Virus.vaccOffset p))).length := by
  intro k
  induction k with
  | zero => intro i rng hwf; rfl
  | succ n ih =>
    intro i rng hwf
    have hv : ¬ ((drawFloat rng).1 < p.initial_vaccinated_rate) := by
      rw [hr]
      exact not_lt.mpr (wf_nonneg hwf)
    have hwf2 : WF (Virus.initAgent p i rng).2 := by
      rw [initAgent_rng]
      exact wf_drop 3 hwf
    have hstate : (Virus.initAgent p i rng).1.state =
        (if i < p.initial_infected + Virus.vaccOffset p then SIR.Infected
         else SIR.Susceptible) := by
      unfold Virus.initAgent
      dsimp only
      simp [hv]
    show Virus.countState SIR.Infected
        ((Virus.initAgent p i rng).1.state ::
          (Virus.buildAgents p (i + 1) n (Virus.initAgent p i rng).2).1.map
            Virus.Agent.state) = _
    rw [countState_cons, ih (i + 1) _ hwf2, List.range'_succ, List.filter_cons]
    by_cases hi : i < p.initial_infected + Virus.vaccOffset p
    · simp [hstate, hi]
      omega
    · simp [hstate, hi]

theorem count_infected_build_final (p : Final.Params) :
    ∀ (k i : Nat) (rng : Rng),
      Virus.countState SIR.Infected
        ((Final.buildAgents p i k rng).1.map Final.Agent.state) =
      ((List.range' i k).filter
        (fun x => decide (x < p.initial_infected))).length := by
  intro k
  induction k with
  | zero => intro i rng; rfl
  | succ n ih =>
    intro i rng
    have hstate : (Final.initAgent p i rng).1.state =
        (if i < p.initial_infected then SIR.Infected else SIR.Susceptible) := rfl
    show Virus.countState SIR.Infected
        ((Final.initAgent p i rng).1.state ::
          (Final.buildAgents p (i + 1) n (Final.initAgent p i rng).2).1.map
            Final.Agent.state) = _
    rw [countState_cons, ih (i + 1) _, List.range'_succ, List.filter_cons]
    by_cases hi : i < p.initial_infected
    · simp [hstate, hi]
      omega
    · simp [hstate, hi]

theorem length_filter_range_lt (t : Nat) :
    ∀ N, ((List.range N).filter (fun x => decide (x < t))).length = min t N := by
  intro N
  induction N with
  | zero => simp
  | succ n ih =>
    rw [List.range_succ, List.filter_append, List.length_append, ih]
    by_cases h : n < t <;> simp [h] <;> omega

theorem mk_count_virus (p : Virus.Params) (rng : Rng)
    (hr : p.initial_vaccinated_rate = 0) (hwf : WF rng)
    (hN : p.initial_infected ≤ p.N) :
    Virus.countState SIR.Infected
      ((Virus.mkModel p rng).1.agents.map Virus.Agent.state) =
      p.initial_infected := by
  show Virus.countState SIR.Infected
      ((Virus.buildAgents p 0 p.N rng).1.map Virus.Agent.state) = _
  rw [count_infected_build p hr p.N 0 rng hwf, ← List.range_eq_range',
    vaccOffset_zero p hr, Nat.add_zero, length_filter_range_lt]
  omega

theorem mk_count_final (p : Final.Params) (rng : Rng)
    (hN : p.initial_infected ≤ p.N) :
    Virus.countState SIR.Infected
      ((Final.mkModel p rng).1.agents.map Final.Agent.state) =
      p.initial_infected := by
  show Virus.countState SIR.Infected
      ((Final.buildAgents p 0 p.N rng).1.map Final.Agent.state) = _
  rw [count_infected_build_final p p.N 0 rng, ← List.range_eq_range',
    length_filter_range_lt]
  omega

/-! Concrete configurations used by witnesses and counterexamples. -/

/-- The rational one half, written in normal form so that kernel
evaluation is direct. -/
def halfQ : ℚ := ⟨1, 2, by decide, by decide⟩

def pC1 : Virus.Params :=
  { N := 2, width := 3, height := 3, initial_infected := 1,
    infection_rate := 0, recovery_time := 15,
    social_distancing_rate := 0, quarantine_enabled := false,
    initial_vaccinated_rate := halfQ }

def rngC1 : Rng :=
  [RVal.flt halfQ, RVal.nat 0, RVal.nat 0,
   RVal.flt halfQ, RVal.nat 0, RVal.nat 0]

def pW1 : Virus.Params :=
  { N := 2, width := 3, height := 3, initial_infected := 1,
    infection_rate := 0, recovery_time := 15,
    social_distancing_rate := 0, quarantine_enabled := false,
    initial_vaccinated_rate := 0 }

def rngW1 : Rng :=
  [RVal.flt 1, RVal.nat 0, RVal.nat 0, RVal.flt 1, RVal.nat 0, RVal.nat 0]

def fpW1 : Final.Params :=
  { N := 1, width := 3, height := 3, initial_infected := 1,
    infection_rate := 0, recovery_time := 15 }

def frngW1 : Rng := [RVal.nat 0, RVal.nat 0]

def aC2 : Virus.Agent :=
  { unique_id := 0, state := SIR.Infected, infection_time := 0,
    is_quarantined := true, pos := none }

def mC2 : Virus.Model :=
  { num_agents := 2, width := 3, height := 3, infection_rate := 1,
    recovery_time := 15, social_distancing_rate := 0,
    quarantine_enabled := true,
    agents := [aC2,
      { unique_id := 1, state := SIR.Susceptible, infection_time := 0,
        is_quarantined := false, pos := some (0, 0) }],
    time := 15, steps := 15, running := true, history := [] }

def rngC2 : Rng :=
  [RVal.nat 0, RVal.nat 0, RVal.flt 1, RVal.nat 0, RVal.flt 0]

def sW3 : Sched.Scheduler Nat := { steps := 0, time := 0, _agents := [(1, 10)] }

def sE3 : Sched.Scheduler Nat := { steps := 0, time := 0, _agents := [] }

def actW4 : Sched.Pop Nat → Nat → Sched.Pop Nat :=
  fun r j => if j = 0 then r.filter (fun kv => kv.1 ≠ 2) else r

def popW4 : Sched.Pop Nat := [(0, 10), (1, 11), (2, 12)]

def qW4 : List Nat := [2, 0, 1]

def pQ : Virus.Params :=
  { N := 2, width := 3, height := 3, initial_infected := 1,
    infection_rate := 1, recovery_time := 15,
    social_distancing_rate := 1, quarantine_enabled := true,
    initial_vaccinated_rate := 0 }

def rngQ : Rng :=
  [RVal.flt 1, RVal.nat 0, RVal.nat 0, RVal.flt 1, RVal.nat 0, RVal.nat 0,
   RVal.perm [0, 1], RVal.flt 0, RVal.flt 0]

def aQ : Virus.Agent :=
  { unique_id := 1, state := SIR.Infected, infection_time := 0,
    is_quarantined := true, pos := none }

def pV6 : Virus.Params :=
  { N := 1, width := 3, height := 3, initial_infected := 1,
    infection_rate := 1, recovery_time := 15,
    social_distancing_rate := 0, quarantine_enabled := false,
    initial_vaccinated_rate := 1 }

def rngV6 : Rng :=
  [RVal.flt 0, RVal.nat 0, RVal.nat 0, RVal.perm [0], RVal.flt 1, RVal.nat 0]

def pF6 : Final.Params :=
  { N := 1, width := 3, height := 3, initial_infected := 1,
    infection_rate := 1, recovery_time := 0 }

def rngF6 : Rng := [RVal.nat 0, RVal.nat 0, RVal.perm [0], RVal.nat 0]

/-- The per-agent tick the spec sentence describes, for comparison with
the implemented `Virus.agentStep`: updateStatus, then move, then infect,
for every agent including quarantined ones. -/
def agentStepClaimed (m : Virus.Model) (id : Nat) (rng : Rng) :
    Virus.Model × Rng :=
  let u := Virus.update_status m id rng
  let v := Virus.move u.1 id u.2
  Virus.infect v.1 id v.2

/-! Claim theorems. -/

unseal Rat.mul in
/-- C1 (counterexample): with N = 2, initialInfected = 1,
initialVaccinatedRate = 1/2 and both vaccination draws equal to 1/2
(so no agent is vaccinated and the number of non-vaccinated agents is
2 ≥ initialInfected), the construction of VirusConEstrategias marks BOTH
agents Infected: the Infected count is 2, not initialInfected = 1. -/
theorem initial_infection_count_cex :
    Virus.countState SIR.Infected
      ((Virus.mkModel pC1 rngC1).1.agents.map Virus.Agent.state) = 2 ∧
    Virus.countState SIR.Recovered
      ((Virus.mkModel pC1 rngC1).1.agents.map Virus.Agent.state) = 0 ∧
    pC1.initial_infected = 1 ∧ WF rngC1 := by decide

/-- C1 (amended): at construction of VirusConEstrategias, agent j is
marked Infected exactly when its vaccination draw did not select it and
j < initialInfected + int(N·initialVaccinatedRate); consequently, when
initialVaccinatedRate = 0 (and the stream is well-formed) the Infected
count equals initialInfected provided initialInfected ≤ N, and in
ComportamientoVirus_FINAL (which has no vaccination) the Infected count
equals initialInfected provided initialInfected ≤ N. -/
theorem initial_infection_characterization (p : Virus.Params)
    (fp : Final.Params) (rng frng : Rng) :
    (∀ j a, j < p.N → (Virus.mkModel p rng).1.agents[j]? = some a →
      (a.state = SIR.Infected ↔
        (¬ ((drawFloat (rng.drop (3 * j))).1 < p.initial_vaccinated_rate) ∧
          j < p.initial_infected + Virus.vaccOffset p))) ∧
    (p.initial_vaccinated_rate = 0 → WF rng → p.initial_infected ≤ p.N →
      Virus.countState SIR.Infected
        ((Virus.mkModel p rng).1.agents.map Virus.Agent.state) =
        p.initial_infected) ∧
    (fp.initial_infected ≤ fp.N →
      Virus.countState SIR.Infected
        ((Final.mkModel fp frng).1.agents.map Final.Agent.state) =
        fp.initial_infected) := by
  refine ⟨?_, ?_, ?_⟩
  · intro j a hj ha
    have hg : (Virus.mkModel p rng).1.agents[j]? =
        some (Virus.initAgent p (0 + j) (rng.drop (3 * j))).1 :=
      buildAgents_getElem p p.N 0 rng j hj
    simp only [Nat.zero_add] at hg
    rw [ha] at hg
    have hae := Option.some.inj hg
    rw [hae]
    exact initAgent_state_iff p j (rng.drop (3 * j))
  · intro h1 h2 h3
    exact mk_count_virus p rng h1 h2 h3
  · intro h
    exact mk_count_final fp frng h

/-- C1 (witness): with initialVaccinatedRate = 0 and N = 2 the Infected
count after construction is 1 = initialInfected, and likewise in the
FINAL model with N = 1. -/
theorem initial_infection_characterization_w :
    Virus.countState SIR.Infected
      ((Virus.mkModel pW1 rngW1).1.agents.map Virus.Agent.state) = 1 ∧
    Virus.countState SIR.Infected
      ((Final.mkModel fpW1 frngW1).1.agents.map Final.Agent.state) = 1 :=
  ⟨(initial_infection_characterization pW1 fpW1 rngW1 frngW1).2.1 rfl
      (by decide) (by decide),
   (initial_infection_characterization pW1 fpW1 rngW1 frngW1).2.2 (by decide)⟩

unseal Rat.mul in
/-- C2 (counterexample): an agent that is quarantined and due for
recovery (recovery_time ≤ time − infection_time) recovers during its
step but does NOT move or infect in that same tick: the implemented
step differs from the claimed updateStatus→move→infect chain at this
concrete state. -/
theorem step_order_quarantined_cex :
    (Virus.findAgent mC2.agents 0 = some aC2 ∧ aC2.is_quarantined = true ∧
      mC2.recovery_time ≤ mC2.time - aC2.infection_time) ∧
    Virus.agentStep mC2 0 rngC2 ≠ agentStepClaimed mC2 0 rngC2 := by decide

/-- C2 (amended): a non-quarantined agent executes updateStatus, then
move, then infect within its tick (so a non-quarantined agent that
recovers during updateStatus still moves and infects that tick); an
agent that is quarantined at the start of its step executes only
updateStatus, even when that updateStatus clears the quarantine flag;
in ComportamientoVirus_FINAL every step is updateStatus→move→infect. -/
theorem agent_step_order (m : Virus.Model) (id : Nat) (rng : Rng)
    (a : Virus.Agent) (hf : Virus.findAgent m.agents id = some a) :
    (a.is_quarantined = false →
      Virus.agentStep m id rng = agentStepClaimed m id rng) ∧
    (a.is_quarantined = true →
      Virus.agentStep m id rng = Virus.update_status m id rng) ∧
    (∀ (fm : Final.Model) (fid : Nat) (fr : Rng),
      Final.agentStep fm fid fr =
        Final.infect (Final.move (Final.update_status fm fid fr).1 fid
            (Final.update_status fm fid fr).2).1 fid
          (Final.move (Final.update_status fm fid fr).1 fid
            (Final.update_status fm fid fr).2).2) := by
  refine ⟨?_, ?_, ?_⟩
  · intro h
    unfold Virus.agentStep agentStepClaimed
    rw [hf]
    simp [h]
  · intro h
    unfold Virus.agentStep
    rw [hf]
    simp [h]
  · intro fm fid fr
    rfl

/-- C2 (witness): at the concrete quarantined state the implemented step
is exactly updateStatus alone. -/
theorem agent_step_order_w :
    Virus.agentStep mC2 0 rngC2 = Virus.update_status mC2 0 rngC2 :=
  (agent_step_order mC2 0 rngC2 aC2 (by decide)).2.1 rfl

/-- C3 (counterexample): removing an identity that is not in the
population raises KeyError (modelled as `none`), it is not a no-op
returning the scheduler unchanged. -/
theorem remove_absent_cex :
    Sched.remove sE3 5 = none ∧ Sched.remove sE3 5 ≠ some sE3 := by decide

/-- C3 (amended): `BaseScheduler.remove` deletes the identity from the
population when it is present; calling it with an absent identity raises
KeyError (`del self._agents[uid]`), modelled as `none` — not a no-op. -/
theorem remove_spec {α : Type} (s : Sched.Scheduler α) (uid : Nat) :
    (uid ∈ s._agents.map Prod.fst →
      Sched.remove s uid =
        some { s with _agents := s._agents.filter (fun kv => kv.1 ≠ uid) }) ∧
    (uid ∉ s._agents.map Prod.fst → Sched.remove s uid = none) := by
  constructor
  · intro h
    simp [Sched.remove, h]
  · intro h
    simp [Sched.remove, h]

/-- C3 (witness): removing the present identity 1 deletes exactly it. -/
theorem remove_spec_w :
    Sched.remove sW3 1 =
      some { sW3 with _agents := sW3._agents.filter (fun kv => kv.1 ≠ 1) } :=
  (remove_spec sW3 1).1 (by decide)

/-- C4: for a tick of the buffered scheduler (src/time.py): the order it
iterates is a permutation of the identities present at the start of the
tick (for any shuffle draw, including the identity shuffle used by
BaseScheduler and the per-tick shuffle of RandomActivation and
StagedActivation); the activated identities form a duplicate-free
subsequence of that order; an identity k scheduled at a given position
is activated exactly when it is still present in the population produced
by the activations before it (so a removal before its turn skips it
silently and affects no other activation); and when no activation ever
removes an identity every scheduled identity is activated exactly once,
in order. -/
theorem scheduler_tick_contract {α : Type}
    (act : Sched.Pop α → Nat → Sched.Pop α) (pop : Sched.Pop α)
    (q : List Nat) (hnd : (pop.map Prod.fst).Nodup) :
    (applyPerm q (pop.map Prod.fst)).Perm (pop.map Prod.fst) ∧
    (Sched.agent_buffer_run act (applyPerm q (pop.map Prod.fst)) pop).2.Sublist
      (applyPerm q (pop.map Prod.fst)) ∧
    (Sched.agent_buffer_run act (applyPerm q (pop.map Prod.fst)) pop).2.Nodup ∧
    (∀ l₁ k l₂, applyPerm q (pop.map Prod.fst) = l₁ ++ k :: l₂ →
      (k ∈ (Sched.agent_buffer_run act (applyPerm q (pop.map Prod.fst)) pop).2 ↔
        k ∈ (Sched.agent_buffer_run act l₁ pop).1.map Prod.fst)) ∧
    ((∀ (r : Sched.Pop α) (j : Nat), (act r j).map Prod.fst = r.map Prod.fst) →
      (Sched.agent_buffer_run act (applyPerm q (pop.map Prod.fst)) pop).2 =
        applyPerm q (pop.map Prod.fst)) := by
  have hperm : (applyPerm q (pop.map Prod.fst)).Perm (pop.map Prod.fst) :=
    applyPerm_perm q (pop.map Prod.fst)
  have hnd2 : (applyPerm q (pop.map Prod.fst)).Nodup := hperm.nodup_iff.mpr hnd
  refine ⟨hperm, Sched.agent_buffer_run_sublist act _ pop,
    (Sched.agent_buffer_run_sublist act _ pop).nodup hnd2, ?_, ?_⟩
  · intro l₁ k l₂ hsplit
    have hnd3 := hnd2
    rw [hsplit] at hnd3
    obtain ⟨ha, hb, hd⟩ := List.nodup_append.mp hnd3
    have hk1 : k ∉ l₁ := fun hk => hd hk (List.mem_cons_self _ _)
    have hk2 : k ∉ l₂ := (List.nodup_cons.mp hb).1
    rw [hsplit]
    exact Sched.agent_buffer_run_mem_iff act l₁ l₂ k pop hk1 hk2
  · intro hpres
    refine Sched.agent_buffer_run_all act hpres _ pop ?_
    intro x hx
    exact hperm.mem_iff.mp hx

/-- C4 (witness): a tick over identities 0,1,2 with a shuffle and a
behavior that removes identity 2 while activating identity 0. -/
theorem scheduler_tick_contract_w :
    (Sched.agent_buffer_run actW4 (applyPerm qW4 (popW4.map Prod.fst))
        popW4).2.Sublist (applyPerm qW4 (popW4.map Prod.fst)) :=
  (scheduler_tick_contract actW4 popW4 qW4 (by decide)).2.1

/-- C5: after every tick of either model, each recorded snapshot row
(Susceptible, Infected, Recovered) sums to the fixed population size N;
quarantined agents stay in the scheduler and are counted in exactly one
state. -/
theorem conservation_law (p : Virus.Params) (fp : Final.Params)
    (rng frng : Rng) (n fn : Nat) :
    (∀ t ∈ (Virus.runModel p rng n).1.history,
      t.1 + t.2.1 + t.2.2 = p.N) ∧
    (∀ t ∈ (Final.runModel fp frng fn).1.history,
      t.1 + t.2.1 + t.2.2 = fp.N) := by
  constructor
  · intro t ht
    have h := Virus.run_histInv p rng n t ht
    rwa [Virus.run_num p rng n] at h
  · intro t ht
    have h := Final.fin_run_histInv fp frng fn t ht
    rwa [Final.fin_run_num fp frng fn] at h

unseal Rat.mul in
/-- C5 (witness): the first recorded rows of two concrete runs sum to
their population sizes. -/
theorem conservation_law_w :
    (0 : Nat) + 2 + 0 = pQ.N ∧ (0 : Nat) + 0 + 1 = pF6.N :=
  ⟨(conservation_law pQ pF6 rngQ rngF6 1 1).1 (0, 2, 0) (by decide),
   (conservation_law pQ pF6 rngQ rngF6 1 1).2 (0, 0, 1) (by decide)⟩

/-- C6: in both models, an agent observed Recovered after n ticks is
still Recovered after every later tick: no operation of the run ever
moves a Recovered agent to Susceptible or Infected. -/
theorem recovered_terminal (p : Virus.Params) (fp : Final.Params)
    (rng frng : Rng) (n k fn fk j fj : Nat) :
    (Virus.stateOf (Virus.runModel p rng n).1 j = some SIR.Recovered →
      Virus.stateOf (Virus.runModel p rng (n + k)).1 j = some SIR.Recovered) ∧
    (Final.stateOf (Final.runModel fp frng fn).1 fj = some SIR.Recovered →
      Final.stateOf (Final.runModel fp frng (fn + fk)).1 fj =
        some SIR.Recovered) :=
  ⟨fun h => Virus.run_rstays p rng n j h k,
   fun h => Final.fin_run_rstays fp frng fn fj h fk⟩

unseal Rat.mul in
/-- C6 (witness): a vaccinated agent stays Recovered across a tick, and
a FINAL-model agent that recovered in tick 1 is still Recovered after
tick 2. -/
theorem recovered_terminal_w :
    Virus.stateOf (Virus.runModel pV6 rngV6 (0 + 1)).1 0 =
      some SIR.Recovered ∧
    Final.stateOf (Final.runModel pF6 rngF6 (1 + 1)).1 0 =
      some SIR.Recovered :=
  ⟨(recovered_terminal pV6 pF6 rngV6 rngF6 0 1 1 1 0 0).1 (by decide),
   (recovered_terminal pV6 pF6 rngV6 rngF6 0 1 1 1 0 0).2 (by decide)⟩

/-- C7: after any number of ticks of VirusConEstrategias, every agent
whose quarantine flag is set is Infected. -/
theorem quarantine_implies_infected (p : Virus.Params) (rng : Rng) (n : Nat) :
    ∀ a ∈ (Virus.runModel p rng n).1.agents,
      a.is_quarantined = true → a.state = SIR.Infected :=
  fun a ha hq => (Virus.run_inv p rng n).2 a ha hq

unseal Rat.mul in
/-- C7 (witness): the concretely quarantined agent produced by one tick
of the quarantine scenario is Infected. -/
theorem quarantine_implies_infected_w :
    aQ ∈ (Virus.runModel pQ rngQ 1).1.agents ∧ aQ.state = SIR.Infected :=
  ⟨by decide, quarantine_implies_infected pQ rngQ 1 aQ (by decide) (by decide)⟩

/-- C8: in both models the running flag starts true at construction;
a tick ends with running = false exactly when it ends with zero Infected
agents or running was already false (so a tick with Infected agents
leaves the flag unchanged and nothing ever resets it to true); and
running is monotone along a run: true after n + k ticks implies true
after n ticks. -/
theorem running_flag_monotone (p : Virus.Params) (fp : Final.Params)
    (rng frng : Rng) :
    (Virus.mkModel p rng).1.running = true ∧
    (∀ (m : Virus.Model) (r : Rng),
      ((Virus.modelStep m r).1.running = false ↔
        (Virus.countState SIR.Infected
            ((Virus.modelStep m r).1.agents.map Virus.Agent.state) = 0 ∨
          m.running = false))) ∧
    (∀ n k, (Virus.runModel p rng (n + k)).1.running = true →
      (Virus.runModel p rng n).1.running = true) ∧
    (Final.mkModel fp frng).1.running = true ∧
    (∀ (m : Final.Model) (r : Rng),
      ((Final.modelStep m r).1.running = false ↔
        (Virus.countState SIR.Infected
            ((Final.modelStep m r).1.agents.map Final.Agent.state) = 0 ∨
          m.running = false))) ∧
    (∀ n k, (Final.runModel fp frng (n + k)).1.running = true →
      (Final.runModel fp frng n).1.running = true) := by
  refine ⟨rfl, ?_, ?_, rfl, ?_, ?_⟩
  · intro m r
    rw [Virus.modelStep_agents, Virus.modelStep_running]
    by_cases hc : Virus.countState SIR.Infected
        ((Virus.scheduleStep m r).1.agents.map Virus.Agent.state) = 0
    · simp [hc]
    · simp [hc]
  · intro n k
    exact Virus.run_running_mono p rng n k
  · intro m r
    rw [Final.fin_modelStep_agents, Final.fin_modelStep_running]
    by_cases hc : Virus.countState SIR.Infected
        ((Final.scheduleStep m r).1.agents.map Final.Agent.state) = 0
    · simp [hc]
    · simp [hc]
  · intro n k
    exact Final.fin_run_running_mono fp frng n k

unseal Rat.mul in
/-- C8 (witness): monotonicity applied at tick 0 of two concrete runs. -/
theorem running_flag_monotone_w :
    (Virus.runModel pQ rngQ 0).1.running = true ∧
    (Final.runModel pF6 rngF6 0).1.running = true :=
  ⟨(running_flag_monotone pQ pF6 rngQ rngF6).2.2.1 0 1 (by decide),
   (running_flag_monotone pQ pF6 rngQ rngF6).2.2.2.2.2 0 0 (by decide)⟩

/-- C9: two runs of either model constructed with the same parameters
and the same random stream (what sharing a seed means at the
RandomSource contract) record identical snapshot histories at every
tick. -/
theorem deterministic_replay (p : Virus.Params) (fp : Final.Params)
    (r1 r2 : Rng) (n fn : Nat) (h : r1 = r2) :
    (Virus.runModel p r1 n).1.history = (Virus.runModel p r2 n).1.history ∧
    (Final.runModel fp r1 fn).1.history =
      (Final.runModel fp r2 fn).1.history := by
  subst h
  exact ⟨rfl, rfl⟩

/-- C9 (witness): replay of the concrete quarantine scenario. -/
theorem deterministic_replay_w :
    (Virus.runModel pQ rngQ 1).1.history =
      (Virus.runModel pQ rngQ 1).1.history ∧
    (Final.runModel pF6 rngQ 1).1.history =
      (Final.runModel pF6 rngQ 1).1.history :=
  deterministic_replay pQ pF6 rngQ rngQ 1 1 rfl

/-- C10: after any number of ticks of either model the scheduler still
holds exactly the N agents registered at construction, with identities
0..N−1 in insertion order (quarantine removes an agent only from the
grid, never from the scheduler). -/
theorem population_constant (p : Virus.Params) (fp : Final.Params)
    (rng frng : Rng) (n fn : Nat) :
    ((Virus.runModel p rng n).1.agents.map Virus.Agent.unique_id =
        List.range p.N ∧
      (Virus.runModel p rng n).1.agents.length = p.N) ∧
    ((Final.runModel fp frng fn).1.agents.map Final.Agent.unique_id =
        List.range fp.N ∧
      (Final.runModel fp frng fn).1.agents.length = fp.N) := by
  have h1 := (Virus.run_inv p rng n).1
  rw [Virus.run_num p rng n] at h1
  have h2 := Final.fin_run_inv fp frng fn
  unfold Final.Inv at h2
  rw [Final.fin_run_num fp frng fn] at h2
  refine ⟨⟨h1, ?_⟩, ⟨h2, ?_⟩⟩
  · have h3 := congrArg List.length h1
    simpa using h3
  · have h3 := congrArg List.length h2
    simpa using h3
